import Mathlib

/-!
Verification of the kudiwallet BNPL credit-ledger logic
(`src/kudiwallet/views.py`, `src/kudiwallet/models.py`).

Money is modelled as `ℚ`.  Python `Decimal` arithmetic is exact decimal
arithmetic except at explicit `quantize(Decimal("0.01"))` calls, which round
to two decimal places with the default context rounding ROUND_HALF_EVEN;
`q2` below models exactly that.  (The 28-significant-digit context precision
of Python `Decimal` multiplication/division is not modelled; at the money
magnitudes handled here it is far below a cent.)

Dates are modelled as integers (days); `(a - b).days` becomes `a - b` and
Python's floor division `//` becomes `Int.fdiv`.
-/

namespace Kudiway

/-- Round a rational to an integer, ties to the even integer
(Python `Decimal`'s default `ROUND_HALF_EVEN`). -/
def roundHalfEven (q : ℚ) : ℤ :=
  if q - ⌊q⌋ < 1/2 then ⌊q⌋
  else if 1/2 < q - ⌊q⌋ then ⌊q⌋ + 1
  else if ⌊q⌋ % 2 = 0 then ⌊q⌋ else ⌊q⌋ + 1

/-- `Decimal.quantize(Decimal("0.01"))` with the default ROUND_HALF_EVEN. -/
def q2 (q : ℚ) : ℚ := (roundHalfEven (q * 100) : ℚ) / 100

/-- The value is an exact multiple of one cent. -/
def is2dp (q : ℚ) : Prop := ∃ n : ℤ, q = (n : ℚ) / 100

theorem roundHalfEven_intCast (n : ℤ) : roundHalfEven (n : ℚ) = n := by
  unfold roundHalfEven
  rw [Int.floor_intCast]
  simp

theorem roundHalfEven_mono {a b : ℚ} (h : a ≤ b) :
    roundHalfEven a ≤ roundHalfEven b := by
  have hfl : ⌊a⌋ ≤ ⌊b⌋ := Int.floor_le_floor h
  rcases eq_or_lt_of_le hfl with hEq | hLt
  · have hfa : (⌊a⌋ : ℚ) = (⌊b⌋ : ℚ) := by exact_mod_cast hEq
    unfold roundHalfEven
    rw [hEq] at *
    split_ifs with h1 h2 h3 h4 h5 h6 h7 <;>
      first
        | omega
        | (exfalso; rw [hfa] at *; linarith)
  · have h1 : roundHalfEven a ≤ ⌊a⌋ + 1 := by
      unfold roundHalfEven; split_ifs <;> omega
    have h2 : ⌊b⌋ ≤ roundHalfEven b := by
      unfold roundHalfEven; split_ifs <;> omega
    omega

theorem q2_mono {a b : ℚ} (h : a ≤ b) : q2 a ≤ q2 b := by
  unfold q2
  have : roundHalfEven (a * 100) ≤ roundHalfEven (b * 100) :=
    roundHalfEven_mono (by linarith)
  have hc : ((roundHalfEven (a * 100) : ℤ) : ℚ) ≤ ((roundHalfEven (b * 100) : ℤ) : ℚ) := by
    exact_mod_cast this
  linarith

theorem q2_of_is2dp {a : ℚ} (h : is2dp a) : q2 a = a := by
  obtain ⟨n, rfl⟩ := h
  unfold q2
  have h100 : ((n : ℚ) / 100) * 100 = (n : ℚ) := by ring
  rw [h100, roundHalfEven_intCast]

theorem is2dp_q2 (x : ℚ) : is2dp (q2 x) := ⟨roundHalfEven (x * 100), rfl⟩

theorem q2_zero : q2 0 = 0 := q2_of_is2dp ⟨0, by norm_num⟩

theorem q2_nonneg {x : ℚ} (h : 0 ≤ x) : 0 ≤ q2 x := by
  have := q2_mono h
  rwa [q2_zero] at this

theorem q2_le_self_of_le {x a : ℚ} (ha : is2dp a) (h : x ≤ a) : q2 x ≤ a := by
  have := q2_mono h
  rwa [q2_of_is2dp ha] at this

theorem self_le_q2_of_le {x a : ℚ} (ha : is2dp a) (h : a ≤ x) : a ≤ q2 x := by
  have := q2_mono h
  rwa [q2_of_is2dp ha] at this

theorem is2dp_add {a b : ℚ} (ha : is2dp a) (hb : is2dp b) : is2dp (a + b) := by
  obtain ⟨m, rfl⟩ := ha
  obtain ⟨n, rfl⟩ := hb
  exact ⟨m + n, by push_cast; ring⟩

theorem is2dp_neg {a : ℚ} (ha : is2dp a) : is2dp (-a) := by
  obtain ⟨m, rfl⟩ := ha
  exact ⟨-m, by push_cast; ring⟩

theorem is2dp_sub {a b : ℚ} (ha : is2dp a) (hb : is2dp b) : is2dp (a - b) := by
  have := is2dp_add ha (is2dp_neg hb)
  simpa [sub_eq_add_neg] using this

theorem is2dp_zero : is2dp 0 := ⟨0, by norm_num⟩

/-! Evaluation helpers for `q2` at concrete arguments (the kernel cannot
reduce ℚ arithmetic, so concrete values are computed through these). -/

theorem floor_eval {x : ℚ} {f : ℤ} (h1 : (f : ℚ) ≤ x) (h2 : x < f + 1) :
    ⌊x⌋ = f :=
  Int.floor_eq_iff.mpr ⟨h1, by exact_mod_cast h2⟩

theorem roundHalfEven_eval_lt {x : ℚ} {f : ℤ} (h1 : (f : ℚ) ≤ x)
    (h2 : x < f + 1) (h3 : x - f < 1/2) : roundHalfEven x = f := by
  unfold roundHalfEven
  rw [floor_eval h1 h2, if_pos h3]

theorem roundHalfEven_eval_gt {x : ℚ} {f : ℤ} (h1 : (f : ℚ) ≤ x)
    (h2 : x < f + 1) (h3 : 1/2 < x - f) : roundHalfEven x = f + 1 := by
  unfold roundHalfEven
  rw [floor_eval h1 h2, if_neg (by linarith), if_pos h3]

theorem roundHalfEven_eval_half_even {x : ℚ} {f : ℤ} (h1 : (f : ℚ) ≤ x)
    (h2 : x < f + 1) (h3 : x - f = 1/2) (he : f % 2 = 0) :
    roundHalfEven x = f := by
  unfold roundHalfEven
  rw [floor_eval h1 h2, if_neg (by rw [h3]; norm_num),
    if_neg (by rw [h3]; norm_num), if_pos he]

theorem q2_eval_exact {x : ℚ} {n : ℤ} (h : x * 100 = (n : ℚ)) :
    q2 x = (n : ℚ) / 100 := by
  unfold q2
  rw [h, roundHalfEven_intCast]

theorem q2_eval_lt {x : ℚ} {f : ℤ} (h1 : (f : ℚ) ≤ x * 100)
    (h2 : x * 100 < f + 1) (h3 : x * 100 - f < 1/2) : q2 x = (f : ℚ) / 100 := by
  unfold q2
  rw [roundHalfEven_eval_lt h1 h2 h3]

theorem q2_eval_gt {x : ℚ} {f : ℤ} (h1 : (f : ℚ) ≤ x * 100)
    (h2 : x * 100 < f + 1) (h3 : 1/2 < x * 100 - f) :
    q2 x = ((f : ℚ) + 1) / 100 := by
  unfold q2
  rw [roundHalfEven_eval_gt h1 h2 h3]
  push_cast
  ring

theorem q2_eval_half_even {x : ℚ} {f : ℤ} (h1 : (f : ℚ) ≤ x * 100)
    (h2 : x * 100 < f + 1) (h3 : x * 100 - f = 1/2) (he : f % 2 = 0) :
    q2 x = (f : ℚ) / 100 := by
  unfold q2
  rw [roundHalfEven_eval_half_even h1 h2 h3 he]

/-! ## Data model (src/kudiwallet/models.py) -/

/-- `CreditPurchase.STATUS_CHOICES` (models.py). -/
inductive PStatus
  | ACTIVE
  | PAID
  | DEFAULTED
deriving DecidableEq, Repr

/-- `CreditPurchase` row (models.py lines 88-107).  `id` is the database
primary key; `due_date` is a day number. -/
structure CreditPurchase where
  id : ℕ
  total_amount : ℚ
  down_payment : ℚ
  credit_amount : ℚ
  remaining_amount : ℚ
  interest_rate : ℚ
  penalty_rate : ℚ
  due_date : ℤ
  status : PStatus
  is_paid : Bool
deriving DecidableEq, Repr

/-- `Wallet` row (models.py lines 10-18). -/
structure Wallet where
  balance : ℚ
  savings_balance : ℚ
  credit_balance : ℚ
  credit_limit : ℚ
  credit_score : ℤ
deriving DecidableEq, Repr

/-- A `Transaction` ledger row (models.py lines 61-76); the free-text
`description` is not modelled. -/
structure Txn where
  transaction_type : String
  amount : ℚ
deriving DecidableEq, Repr

/-- The per-user persistent state touched by the BNPL views. -/
structure St where
  wallet : Wallet
  purchases : List CreditPurchase
  ledger : List Txn
deriving DecidableEq, Repr

/-- Error outcomes of the BNPL views (the distinct 400-responses of
views.py; names follow the spec's error taxonomy §7). -/
inductive WErr
  | InvalidAmount
  | DownPaymentTooLow
  | InsufficientFunds
  | DownPaymentCoversFull
  | CreditLimitExceeded
  | NoActiveCredit
deriving DecidableEq, Repr

/-! ## Credit purchase (views.py `make_credit_purchase`, POST branch,
lines 364-427 — the second definition, which shadows the first) -/

/-- `min_down` (views.py line 373):
`(amount * Decimal("0.20")).quantize(Decimal("0.01"))`. -/
def minDown (amount : ℚ) : ℚ := q2 (amount * (20/100))

/-- `credit_principal` (views.py line 380):
`(amount - down_payment).quantize(Decimal("0.01"))`. -/
def creditPrincipal (amount down_payment : ℚ) : ℚ := q2 (amount - down_payment)

/-- The `CreditPurchase` row the POST branch creates (views.py 393-405). -/
def newPurchase (today : ℤ) (newId : ℕ) (amount down_payment : ℚ) : CreditPurchase :=
  { id := newId
    total_amount := amount
    down_payment := down_payment
    credit_amount := creditPrincipal amount down_payment
    remaining_amount := creditPrincipal amount down_payment
    interest_rate := 5
    penalty_rate := 1
    due_date := today + 14
    status := .ACTIVE
    is_paid := false }

/-- POST branch of `make_credit_purchase`.  `today` is the current date,
`newId` the primary key the database assigns to the created row. -/
def make_credit_purchase (today : ℤ) (newId : ℕ) (st : St)
    (amount down_payment : ℚ) : Except WErr St :=
  if amount ≤ 0 then .error .InvalidAmount
  else if down_payment < minDown amount then .error .DownPaymentTooLow
  else if st.wallet.balance < down_payment then .error .InsufficientFunds
  else if creditPrincipal amount down_payment ≤ 0 then .error .DownPaymentCoversFull
  else if st.wallet.credit_limit
      < st.wallet.credit_balance + creditPrincipal amount down_payment then
    .error .CreditLimitExceeded
  else
    .ok { wallet := { st.wallet with
            balance := st.wallet.balance - down_payment
            credit_balance := st.wallet.credit_balance + creditPrincipal amount down_payment }
          purchases := st.purchases ++ [newPurchase today newId amount down_payment]
          ledger := st.ledger ++
            [⟨"credit_purchase", creditPrincipal amount down_payment⟩,
             ⟨"withdraw", down_payment⟩] }

/-! ## Repayment (views.py `repay_credit`, lines 235-320) -/

/-- Interest on the current principal (views.py line 272):
`(principal_due * Decimal("0.05")).quantize(Decimal("0.01"))`.
Note the hardcoded 5%, not the line's stored `interest_rate`. -/
def interestOn (principal_due : ℚ) : ℚ := q2 (principal_due * (5/100))

/-- Whole weeks overdue (views.py line 277): `(today - due_date).days // 7`. -/
def weeksOverdue (today due : ℤ) : ℤ := (today - due).fdiv 7

/-- Penalty if overdue, per full week (views.py lines 275-279).
Note the hardcoded 1% per week, not the line's stored `penalty_rate`. -/
def penaltyOn (today due : ℤ) (principal_due : ℚ) : ℚ :=
  if due < today then
    if 0 < weeksOverdue today due then
      q2 (principal_due * (1/100) * (weeksOverdue today due : ℚ))
    else 0
  else 0

/-- `total_due_now` for one line (views.py line 281). -/
def dueNow (today : ℤ) (p : CreditPurchase) : ℚ :=
  q2 (p.remaining_amount + interestOn p.remaining_amount
      + penaltyOn today p.due_date p.remaining_amount)

/-- Stable insertion of a purchase into a list sorted by `due_date`
(models Django's `.order_by("due_date")`). -/
def insertByDue (p : CreditPurchase) : List CreditPurchase → List CreditPurchase
  | [] => [p]
  | q :: rest =>
      if q.due_date ≤ p.due_date then q :: insertByDue p rest else p :: q :: rest

/-- Sort purchases by ascending `due_date` (`.order_by("due_date")`). -/
def sortByDue : List CreditPurchase → List CreditPurchase
  | [] => []
  | p :: rest => insertByDue p (sortByDue rest)

/-- Mutable state of the repayment loop (views.py lines 255-300):
the running payment, the wallet fields the loop mutates, the reporting
totals, and the rows saved so far. -/
structure LoopSt where
  remaining_payment : ℚ
  credit_balance : ℚ
  credit_score : ℤ
  total_interest : ℚ
  total_penalty : ℚ
  done : List CreditPurchase
deriving DecidableEq, Repr

/-- `principal_paid` of the partial-settlement branch (views.py lines
291-292): `fraction = remaining_payment / total_due_now`;
`principal_paid = (principal_due * fraction).quantize(Decimal("0.01"))`. -/
def principalPaid (today : ℤ) (pay : ℚ) (p : CreditPurchase) : ℚ :=
  q2 (p.remaining_amount * (pay / dueNow today p))

/-- One iteration of the repayment loop (views.py lines 260-300).
The `remaining_payment ≤ 0` branch models the `break`: the row passes
through unmodified, as do all later rows (the payment never grows).
`principal_due` is `p.remaining_amount` and `total_due_now` is
`dueNow today p`. -/
def repayStep (today : ℤ) (s : LoopSt) (p : CreditPurchase) : LoopSt :=
  if s.remaining_payment ≤ 0 then { s with done := s.done ++ [p] }
  else if p.remaining_amount ≤ 0 then
    { s with done := s.done ++ [{ p with is_paid := true, status := .PAID }] }
  else if dueNow today p ≤ s.remaining_payment then
    { remaining_payment := s.remaining_payment - dueNow today p
      credit_balance := s.credit_balance - p.remaining_amount
      credit_score := min (s.credit_score + 10) 1000
      total_interest := s.total_interest + interestOn p.remaining_amount
      total_penalty := s.total_penalty + penaltyOn today p.due_date p.remaining_amount
      done := s.done ++
        [{ p with remaining_amount := 0, is_paid := true, status := .PAID }] }
  else
    { remaining_payment := 0
      credit_balance := s.credit_balance - principalPaid today s.remaining_payment p
      credit_score := min (s.credit_score + 3) 1000
      total_interest := s.total_interest + interestOn p.remaining_amount
      total_penalty := s.total_penalty + penaltyOn today p.due_date p.remaining_amount
      done := s.done ++
        [{ p with remaining_amount := q2 (p.remaining_amount - principalPaid today s.remaining_payment p) }] }

/-- Result of a successful repayment: the new state plus the reported
interest/penalty totals. -/
structure RepayResult where
  st : St
  total_interest : ℚ
  total_penalty : ℚ
deriving DecidableEq, Repr

/-- The queryset `CreditPurchase.objects.filter(user=..., is_paid=False)
.order_by("due_date")` (views.py line 251). -/
def activesOf (st : St) : List CreditPurchase :=
  sortByDue (st.purchases.filter (fun p => !p.is_paid))

/-- Loop state on entry (views.py lines 255-258). -/
def initLoop (st : St) (amount : ℚ) : LoopSt :=
  { remaining_payment := amount
    credit_balance := st.wallet.credit_balance
    credit_score := st.wallet.credit_score
    total_interest := 0
    total_penalty := 0
    done := [] }

/-- Loop state after the `for purchase in purchases` loop. -/
def finLoop (today : ℤ) (st : St) (amount : ℚ) : LoopSt :=
  (activesOf st).foldl (repayStep today) (initLoop st amount)

/-- `repay_credit` (views.py lines 235-320). -/
def repay_credit (today : ℤ) (st : St) (amount : ℚ) : Except WErr RepayResult :=
  if amount ≤ 0 then .error .InvalidAmount
  else if st.wallet.balance < amount then .error .InsufficientFunds
  else if (st.purchases.filter (fun p => !p.is_paid)).isEmpty then .error .NoActiveCredit
  else
    .ok { st := { wallet := { st.wallet with
                    balance := st.wallet.balance - amount
                    credit_balance := (finLoop today st amount).credit_balance
                    credit_score := (finLoop today st amount).credit_score }
                  purchases := st.purchases.filter (fun p => p.is_paid)
                    ++ (finLoop today st amount).done
                  ledger := st.ledger ++ [⟨"repay", amount⟩] }
          total_interest := (finLoop today st amount).total_interest
          total_penalty := (finLoop today st amount).total_penalty }

/-! ## Read-only preview (views.py `make_credit_purchase` GET branch,
lines 342-361) -/

/-- `total_due_preview` for one open line (views.py lines 347-350):
`overdue_weeks = max(0, (today - due_date).days // 7)`, then
`remaining_amount * (1 + 0.01 * overdue_weeks)` quantized once. -/
def total_due_preview (today : ℤ) (p : CreditPurchase) : ℚ :=
  q2 (p.remaining_amount * (1 + (1/100) * ((max 0 ((today - p.due_date).fdiv 7) : ℤ) : ℚ)))

/-! ## Credit score (models.py `Wallet.update_credit_score`, lines 44-55) -/

/-- The first, mutually exclusive `if/elif/elif` chain of
`Wallet.update_credit_score` (models.py lines 46-51). -/
def scoreStep1 (w : Wallet) : ℤ :=
  if w.credit_balance = 0 then min (w.credit_score + 10) 1000
  else if w.credit_limit * (8/10) < w.credit_balance then
    max (w.credit_score - 15) 300
  else if w.credit_balance < w.credit_limit * (5/10) then
    min (w.credit_score + 5) 1000
  else w.credit_score

/-- `Wallet.update_credit_score` (models.py lines 44-55): the chain above,
then the independent savings check (lines 52-53) applied on its result. -/
def update_credit_score (w : Wallet) : Wallet :=
  { w with credit_score :=
      if w.credit_balance * (5/10) < w.savings_balance then min (scoreStep1 w + 3) 1000
      else scoreStep1 w }

/-! ## Operation sequences -/

/-- One API call against a wallet's state; each carries its own date. -/
inductive Op
  | purchase (today : ℤ) (newId : ℕ) (amount down_payment : ℚ)
  | repay (today : ℤ) (amount : ℚ)

/-- Apply one call; a rejected (error) call leaves the state unchanged,
as every validation failure in views.py returns before any save. -/
def applyOp (st : St) : Op → St
  | .purchase today newId amount dp =>
      match make_credit_purchase today newId st amount dp with
      | .ok st' => st'
      | .error _ => st
  | .repay today amount =>
      match repay_credit today st amount with
      | .ok r => r.st
      | .error _ => st

/-- Run a sequence of calls. -/
def runOps (st : St) : List Op → St
  | [] => st
  | op :: ops => runOps (applyOp st op) ops

/-! ## Invariants -/

/-- Well-formedness of one stored credit line: the remaining amount is a
nonnegative multiple of one cent, and the `is_paid` flag agrees with the
`status` column (views.py always sets the two together). -/
def goodP (p : CreditPurchase) : Prop :=
  0 ≤ p.remaining_amount ∧ is2dp p.remaining_amount ∧
    (p.is_paid = true ↔ p.status = PStatus.PAID)

/-- Sum of `remaining_amount` over a list of credit lines. -/
def allSum (l : List CreditPurchase) : ℚ :=
  (l.map (fun p => p.remaining_amount)).sum

/-- Sum of `remaining_amount` over the not-yet-paid lines. -/
def nonPaidSum (l : List CreditPurchase) : ℚ :=
  allSum (l.filter (fun p => !p.is_paid))

/-- The conservation invariant of the spec (§3, §8). -/
def conserved (st : St) : Prop :=
  st.wallet.credit_balance = nonPaidSum st.purchases

/-- The inductive state invariant: conservation plus per-line
well-formedness. -/
def Inv (st : St) : Prop :=
  conserved st ∧ ∀ p ∈ st.purchases, goodP p

theorem allSum_nil : allSum [] = 0 := rfl

theorem allSum_cons (p : CreditPurchase) (l : List CreditPurchase) :
    allSum (p :: l) = p.remaining_amount + allSum l := by
  simp [allSum]

theorem allSum_append (l₁ l₂ : List CreditPurchase) :
    allSum (l₁ ++ l₂) = allSum l₁ + allSum l₂ := by
  simp [allSum]

theorem nonPaidSum_nil : nonPaidSum [] = 0 := rfl

theorem nonPaidSum_cons (p : CreditPurchase) (l : List CreditPurchase) :
    nonPaidSum (p :: l)
      = (if p.is_paid then 0 else p.remaining_amount) + nonPaidSum l := by
  unfold nonPaidSum
  rcases hb : p.is_paid with _ | _ <;>
    simp [List.filter_cons, hb, allSum_cons]

theorem nonPaidSum_append (l₁ l₂ : List CreditPurchase) :
    nonPaidSum (l₁ ++ l₂) = nonPaidSum l₁ + nonPaidSum l₂ := by
  unfold nonPaidSum
  rw [List.filter_append, allSum_append]

theorem nonPaidSum_filter_paid (l : List CreditPurchase) :
    nonPaidSum (l.filter (fun p => p.is_paid)) = 0 := by
  induction l with
  | nil => rfl
  | cons p l ih =>
      rcases hb : p.is_paid with _ | _ <;>
        simp [List.filter_cons, hb, nonPaidSum_cons, ih]

theorem insertByDue_perm (p : CreditPurchase) (l : List CreditPurchase) :
    (insertByDue p l).Perm (p :: l) := by
  induction l with
  | nil => simp [insertByDue]
  | cons q rest ih =>
      unfold insertByDue
      split_ifs
      · exact ((ih.cons q).trans (List.Perm.swap p q rest))
      · exact List.Perm.refl _

theorem sortByDue_perm (l : List CreditPurchase) :
    (sortByDue l).Perm l := by
  induction l with
  | nil => exact List.Perm.refl _
  | cons p rest ih =>
      unfold sortByDue
      exact (insertByDue_perm p (sortByDue rest)).trans (ih.cons p)

theorem allSum_sortByDue (l : List CreditPurchase) :
    allSum (sortByDue l) = allSum l := by
  unfold allSum
  exact ((sortByDue_perm l).map (fun p => p.remaining_amount)).sum_eq

theorem mem_sortByDue {p : CreditPurchase} {l : List CreditPurchase} :
    p ∈ sortByDue l ↔ p ∈ l :=
  (sortByDue_perm l).mem_iff

theorem forall₂_mem_right {α β : Type} {R : α → β → Prop}
    {l : List α} {l' : List β} (h : List.Forall₂ R l l') :
    ∀ b ∈ l', ∃ a ∈ l, R a b := by
  induction h with
  | nil => intro b hb; cases hb
  | cons hr _ ih =>
      intro b hb
      rcases hb with _ | ⟨_, hb⟩
      · exact ⟨_, List.mem_cons_self _ _, hr⟩
      · obtain ⟨a, ha, hab⟩ := ih _ hb
        exact ⟨a, List.mem_cons_of_mem _ ha, hab⟩

theorem forall₂_mem_left {α β : Type} {R : α → β → Prop}
    {l : List α} {l' : List β} (h : List.Forall₂ R l l') :
    ∀ a ∈ l, ∃ b ∈ l', R a b := by
  induction h with
  | nil => intro a ha; cases ha
  | cons hr _ ih =>
      intro a ha
      rcases ha with _ | ⟨_, ha⟩
      · exact ⟨_, List.mem_cons_self _ _, hr⟩
      · obtain ⟨b, hb, hab⟩ := ih _ ha
        exact ⟨b, List.mem_cons_of_mem _ hb, hab⟩

/-! ## Per-line arithmetic facts -/

theorem interestOn_nonneg {x : ℚ} (hx : 0 ≤ x) : 0 ≤ interestOn x := by
  unfold interestOn
  exact q2_nonneg (by linarith)

theorem penaltyOn_nonneg (today due : ℤ) {x : ℚ} (hx : 0 ≤ x) :
    0 ≤ penaltyOn today due x := by
  unfold penaltyOn
  split_ifs with h1 h2
  · refine q2_nonneg ?_
    have hw : (0 : ℚ) ≤ ((weeksOverdue today due : ℤ) : ℚ) := by
      exact_mod_cast le_of_lt h2
    positivity
  · exact le_refl 0
  · exact le_refl 0

theorem dueNow_eq (today : ℤ) (p : CreditPurchase) :
    dueNow today p
      = q2 (p.remaining_amount + interestOn p.remaining_amount
          + penaltyOn today p.due_date p.remaining_amount) := rfl

/-- What the loop charges as due for a line is at least its remaining
principal (for a well-formed line). -/
theorem dueNow_ge_principal (today : ℤ) {p : CreditPurchase}
    (h0 : 0 ≤ p.remaining_amount) (h2 : is2dp p.remaining_amount) :
    p.remaining_amount ≤ dueNow today p := by
  unfold dueNow
  refine self_le_q2_of_le h2 ?_
  have hi := interestOn_nonneg h0
  have hp := penaltyOn_nonneg today p.due_date h0
  linarith

theorem dueNow_nonneg (today : ℤ) {p : CreditPurchase}
    (h0 : 0 ≤ p.remaining_amount) : 0 ≤ dueNow today p := by
  unfold dueNow
  have hi := interestOn_nonneg h0
  have hp := penaltyOn_nonneg today p.due_date h0
  exact q2_nonneg (by linarith)

/-! ## The repayment loop, one step at a time -/

/-- How one loop iteration relates the stored row to the saved row. -/
def stepRel (p q : CreditPurchase) : Prop :=
  q.id = p.id ∧ q.due_date = p.due_date ∧ q.interest_rate = p.interest_rate ∧
    q.remaining_amount ≤ p.remaining_amount ∧ goodP q

/-- Full case analysis of one loop iteration on a well-formed unpaid row:
exactly one row is appended to `done`; the loop's credit balance drops by
exactly the principal that left the row; the row never grows; the
remaining payment never grows. -/
theorem repayStep_cases (today : ℤ) (s : LoopSt) (p : CreditPurchase)
    (hg : goodP p) (hnp : p.is_paid = false) :
    ∃ q : CreditPurchase,
      (repayStep today s p).done = s.done ++ [q] ∧
      (repayStep today s p).credit_balance
        = s.credit_balance - p.remaining_amount
          + (if q.is_paid then 0 else q.remaining_amount) ∧
      stepRel p q ∧
      (repayStep today s p).remaining_payment ≤ s.remaining_payment := by
  obtain ⟨hge, h2dp, hiff⟩ := hg
  unfold repayStep
  split_ifs with hbreak hzero hfull
  · -- break: payment exhausted, row passes through untouched
    refine ⟨p, rfl, ?_, ⟨rfl, rfl, rfl, le_refl _, hge, h2dp, hiff⟩, le_refl _⟩
    simp [hnp]
  · -- skip: remaining_amount ≤ 0 (hence = 0): marked PAID, nothing else
    have h0 : p.remaining_amount = 0 := le_antisymm hzero hge
    refine ⟨{ p with is_paid := true, status := .PAID }, rfl, ?_, ?_, le_refl _⟩
    · simp [h0]
    · exact ⟨rfl, rfl, rfl, le_refl _, by simp [h0], by simpa using h2dp, by simp⟩
  · -- full settlement
    refine ⟨{ p with remaining_amount := 0, is_paid := true, status := .PAID },
        rfl, ?_, ?_, ?_⟩
    · simp
    · exact ⟨rfl, rfl, rfl, by simpa using hge, by simp, by simp [is2dp_zero], by simp⟩
    · have hd : 0 ≤ dueNow today p := dueNow_nonneg today hge
      simp only
      linarith
  · -- partial settlement
    have hpos : 0 < p.remaining_amount := lt_of_not_le hzero
    have hrp : 0 < s.remaining_payment := lt_of_not_le hbreak
    have htd_ge : p.remaining_amount ≤ dueNow today p :=
      dueNow_ge_principal today hge h2dp
    have htd_pos : 0 < dueNow today p := lt_of_lt_of_le hpos htd_ge
    have hlt : s.remaining_payment < dueNow today p := lt_of_not_le hfull
    have hfrac_pos : 0 < s.remaining_payment / dueNow today p := div_pos hrp htd_pos
    have hfrac_lt : s.remaining_payment / dueNow today p < 1 :=
      (div_lt_one htd_pos).mpr hlt
    have hpp_nonneg : 0 ≤ principalPaid today s.remaining_payment p := by
      unfold principalPaid
      exact q2_nonneg (by positivity)
    have hpp_le : principalPaid today s.remaining_payment p ≤ p.remaining_amount := by
      unfold principalPaid
      refine q2_le_self_of_le h2dp ?_
      calc p.remaining_amount * (s.remaining_payment / dueNow today p)
          ≤ p.remaining_amount * 1 :=
            mul_le_mul_of_nonneg_left (le_of_lt hfrac_lt) (le_of_lt hpos)
        _ = p.remaining_amount := by ring
    have hpp2 : is2dp (principalPaid today s.remaining_payment p) := is2dp_q2 _
    have hrem : q2 (p.remaining_amount - principalPaid today s.remaining_payment p)
        = p.remaining_amount - principalPaid today s.remaining_payment p :=
      q2_of_is2dp (is2dp_sub h2dp hpp2)
    refine ⟨{ p with remaining_amount := q2 (p.remaining_amount - principalPaid today s.remaining_payment p) },
        rfl, ?_, ?_, ?_⟩
    · simp only [hnp]
      rw [hrem]
      simp only [Bool.false_eq_true, if_false]
      ring
    · refine ⟨rfl, rfl, rfl, ?_, ?_, ?_, ?_⟩
      · simp only
        rw [hrem]; linarith
      · simp only
        rw [hrem]; linarith
      · simpa using is2dp_q2 _
      · simpa using hiff
    · simp only
      linarith

/-- The whole repayment loop: the rows it saves are its input rows in
order, pointwise related by `stepRel`, and the loop's credit balance
moves in lockstep with the principal removed from the rows. -/
theorem repayLoop_master (today : ℤ) (rest : List CreditPurchase) :
    ∀ s : LoopSt,
      (∀ p ∈ rest, goodP p ∧ p.is_paid = false) →
      ∃ out : List CreditPurchase,
        (rest.foldl (repayStep today) s).done = s.done ++ out ∧
        (rest.foldl (repayStep today) s).credit_balance
          = s.credit_balance - allSum rest + nonPaidSum out ∧
        List.Forall₂ stepRel rest out := by
  induction rest with
  | nil =>
      intro s _
      exact ⟨[], by simp, by simp [allSum_nil, nonPaidSum_nil], List.Forall₂.nil⟩
  | cons p rest ih =>
      intro s h
      obtain ⟨hg, hnp⟩ := h p (List.mem_cons_self _ _)
      obtain ⟨q, hdone, hcb, hrel, _⟩ := repayStep_cases today s p hg hnp
      obtain ⟨out', hdone', hcb', hrel'⟩ :=
        ih (repayStep today s p) (fun r hr => h r (List.mem_cons_of_mem _ hr))
      refine ⟨q :: out', ?_, ?_, List.Forall₂.cons hrel hrel'⟩
      · rw [List.foldl_cons, hdone', hdone, List.append_assoc]
        rfl
      · rw [List.foldl_cons, hcb', hcb, allSum_cons, nonPaidSum_cons]
        ring

/-! ## Preservation of the state invariant -/

/-- Everything the repayment loop iterates over is a well-formed unpaid
row (given the state invariant). -/
theorem activesOf_good {st : St} (hgood : ∀ p ∈ st.purchases, goodP p) :
    ∀ p ∈ activesOf st, goodP p ∧ p.is_paid = false := by
  intro p hp
  have hp' : p ∈ st.purchases.filter (fun p => !p.is_paid) := mem_sortByDue.mp hp
  have hm := List.mem_of_mem_filter hp'
  have hf := List.of_mem_filter hp'
  simp only [Bool.not_eq_true'] at hf
  exact ⟨hgood p hm, hf⟩

/-- `finLoop` characterized through `repayLoop_master`. -/
theorem finLoop_spec (st : St) (today : ℤ) (amount : ℚ)
    (hgood : ∀ p ∈ st.purchases, goodP p) :
    ∃ out : List CreditPurchase,
      (finLoop today st amount).done = out ∧
      (finLoop today st amount).credit_balance
        = st.wallet.credit_balance - allSum (activesOf st) + nonPaidSum out ∧
      List.Forall₂ stepRel (activesOf st) out := by
  obtain ⟨out, hdone, hcb, hrel⟩ :=
    repayLoop_master today (activesOf st) (initLoop st amount)
      (activesOf_good hgood)
  exact ⟨out, by simpa [finLoop, initLoop] using hdone,
    by simpa [finLoop, initLoop] using hcb, hrel⟩

theorem Inv_make_credit_purchase {today : ℤ} {newId : ℕ} {st st' : St}
    {amount dp : ℚ} (hInv : Inv st)
    (h : make_credit_purchase today newId st amount dp = .ok st') : Inv st' := by
  obtain ⟨hcons, hgood⟩ := hInv
  unfold make_credit_purchase at h
  split_ifs at h with h1 h2 h3 h4 h5
  simp only [Except.ok.injEq] at h
  subst h
  constructor
  · unfold conserved at hcons ⊢
    simp [nonPaidSum_append, nonPaidSum_cons, nonPaidSum_nil, newPurchase, hcons]
  · intro p hp
    rcases List.mem_append.mp hp with hmem | hmem
    · exact hgood p hmem
    · rcases hmem with _ | ⟨_, hmem⟩
      · refine ⟨le_of_lt (lt_of_not_le h4), is2dp_q2 _, ?_⟩
        constructor <;> intro hx <;> cases hx
      · cases hmem

theorem Inv_repay_credit {today : ℤ} {st : St} {amount : ℚ} {r : RepayResult}
    (hInv : Inv st) (h : repay_credit today st amount = .ok r) : Inv r.st := by
  obtain ⟨hcons, hgood⟩ := hInv
  unfold repay_credit at h
  split_ifs at h with h1 h2 h3
  simp only [Except.ok.injEq] at h
  obtain ⟨out, hdone, hcb, hrel⟩ := finLoop_spec st today amount hgood
  subst h
  constructor
  · unfold conserved at hcons ⊢
    simp only
    rw [hdone, hcb]
    rw [nonPaidSum_append, nonPaidSum_filter_paid]
    unfold activesOf
    rw [allSum_sortByDue]
    unfold nonPaidSum at hcons
    rw [hcons]
    unfold nonPaidSum
    ring
  · intro p hp
    simp only at hp
    rw [hdone] at hp
    rcases List.mem_append.mp hp with hmem | hmem
    · exact hgood p (List.mem_of_mem_filter hmem)
    · obtain ⟨a, _, harel⟩ := forall₂_mem_right hrel p hmem
      exact harel.2.2.2.2

theorem Inv_applyOp {st : St} (hInv : Inv st) (op : Op) : Inv (applyOp st op) := by
  cases op with
  | purchase today newId amount dp =>
      rcases hres : make_credit_purchase today newId st amount dp with e | st'
      · simp only [applyOp, hres]
        exact hInv
      · simp only [applyOp, hres]
        exact Inv_make_credit_purchase hInv hres
  | repay today amount =>
      rcases hres : repay_credit today st amount with e | r
      · simp only [applyOp, hres]
        exact hInv
      · simp only [applyOp, hres]
        exact Inv_repay_credit hInv hres

theorem Inv_runOps {st : St} (hInv : Inv st) (ops : List Op) :
    Inv (runOps st ops) := by
  induction ops generalizing st with
  | nil => exact hInv
  | cons op ops ih => exact ih (Inv_applyOp hInv op)

/-! ## Per-line tracking across operations -/

/-- One call: each stored line survives (with the same id), its remaining
amount never grows, and a paid line stays paid. -/
theorem applyOp_tracks {st : St} (hInv : Inv st) (op : Op) :
    ∀ p ∈ st.purchases, ∃ q ∈ (applyOp st op).purchases,
      q.id = p.id ∧ q.remaining_amount ≤ p.remaining_amount ∧
        (p.is_paid = true → q.is_paid = true ∧ q.status = PStatus.PAID) := by
  obtain ⟨hcons, hgood⟩ := hInv
  intro p hp
  have hpaid_self : p.is_paid = true → p.is_paid = true ∧ p.status = PStatus.PAID :=
    fun hb => ⟨hb, ((hgood p hp).2.2).mp hb⟩
  cases op with
  | purchase today newId amount dp =>
      rcases hres : make_credit_purchase today newId st amount dp with e | st'
      · exact ⟨p, by simp only [applyOp, hres]; exact hp, rfl, le_refl _, hpaid_self⟩
      · refine ⟨p, ?_, rfl, le_refl _, hpaid_self⟩
        simp only [applyOp, hres]
        unfold make_credit_purchase at hres
        split_ifs at hres
        simp only [Except.ok.injEq] at hres
        subst hres
        exact List.mem_append_left _ hp
  | repay today amount =>
      rcases hres : repay_credit today st amount with e | r
      · exact ⟨p, by simp only [applyOp, hres]; exact hp, rfl, le_refl _, hpaid_self⟩
      · simp only [applyOp, hres]
        unfold repay_credit at hres
        split_ifs at hres
        simp only [Except.ok.injEq] at hres
        obtain ⟨out, hdone, _, hrel⟩ := finLoop_spec st today amount hgood
        rcases hb : p.is_paid with _ | _
        · -- unpaid: the loop processed it
          have hmemf : p ∈ st.purchases.filter (fun p => !p.is_paid) :=
            List.mem_filter.mpr ⟨hp, by simp [hb]⟩
          have hmact : p ∈ activesOf st := mem_sortByDue.mpr hmemf
          obtain ⟨q, hq, hqrel⟩ := forall₂_mem_left hrel p hmact
          refine ⟨q, ?_, hqrel.1, hqrel.2.2.2.1, ?_⟩
          · subst hres
            simp only
            rw [hdone]
            exact List.mem_append_right _ hq
          · intro hpb; simp at hpb
        · -- paid: the loop never touches it
          refine ⟨p, ?_, rfl, le_refl _, fun _ => hpaid_self hb⟩
          subst hres
          simp only
          exact List.mem_append_left _ (List.mem_filter.mpr ⟨hp, by simp [hb]⟩)

/-- Any sequence of calls: same statement, by induction and transitivity. -/
theorem runOps_tracks {st : St} (hInv : Inv st) (ops : List Op) :
    ∀ p ∈ st.purchases, ∃ q ∈ (runOps st ops).purchases,
      q.id = p.id ∧ q.remaining_amount ≤ p.remaining_amount ∧
        (p.is_paid = true → q.is_paid = true ∧ q.status = PStatus.PAID) := by
  induction ops generalizing st with
  | nil =>
      intro p hp
      refine ⟨p, hp, rfl, le_refl _, fun hb => ⟨hb, (((hInv.2) p hp).2.2).mp hb⟩⟩
  | cons op ops ih =>
      intro p hp
      obtain ⟨q1, hq1, hid1, hle1, hpd1⟩ := applyOp_tracks hInv op p hp
      obtain ⟨q2, hq2, hid2, hle2, hpd2⟩ :=
        ih (Inv_applyOp hInv op) q1 hq1
      refine ⟨q2, hq2, hid2.trans hid1, hle2.trans hle1, fun hb => ?_⟩
      obtain ⟨hb1, _⟩ := hpd1 hb
      exact hpd2 hb1

/-! ## Sample states used by witnesses and counterexamples -/

/-- A fresh wallet with some cash and no credit history. -/
def freshSt : St :=
  { wallet := { balance := 100, savings_balance := 0, credit_balance := 0,
                credit_limit := 500, credit_score := 600 }
    purchases := []
    ledger := [] }

theorem Inv_freshSt : Inv freshSt :=
  ⟨rfl, fun p hp => absurd hp (List.not_mem_nil p)⟩

/-- One active line of ₵1.00 remaining, due on day 0. -/
def oneLinePurchase : CreditPurchase :=
  { id := 1, total_amount := 2, down_payment := 1, credit_amount := 1,
    remaining_amount := 1, interest_rate := 5, penalty_rate := 1, due_date := 0,
    status := .ACTIVE, is_paid := false }

/-- A wallet owing exactly the line above. -/
def oneLineSt : St :=
  { wallet := { balance := 10, savings_balance := 0, credit_balance := 1,
                credit_limit := 500, credit_score := 600 }
    purchases := [oneLinePurchase]
    ledger := [] }

theorem Inv_oneLineSt : Inv oneLineSt := by
  constructor
  · unfold conserved nonPaidSum allSum
    simp [oneLineSt, oneLinePurchase]
  · intro p hp
    rcases hp with _ | ⟨_, hp⟩
    · exact ⟨by norm_num [oneLinePurchase], ⟨100, by norm_num [oneLinePurchase]⟩,
        by simp [oneLinePurchase]⟩
    · cases hp

/-! ## Claim theorems -/

/-- C1: conservation — for every sequence of credit-purchase and repayment
operations starting from a state satisfying the ledger invariant, the
wallet's `credit_balance` equals the sum of `remaining_amount` over that
wallet's non-PAID credit purchases after each operation completes. -/
theorem credit_balance_conservation (st : St) (hInv : Inv st) (ops : List Op) :
    (runOps st ops).wallet.credit_balance
      = allSum ((runOps st ops).purchases.filter
          (fun p => !(p.status == PStatus.PAID))) := by
  obtain ⟨hcons, hgood⟩ := Inv_runOps hInv ops
  unfold conserved at hcons
  rw [hcons]
  unfold nonPaidSum
  congr 1
  refine List.filter_congr ?_
  intro p hp
  have hiff := (hgood p hp).2.2
  rcases hb : p.is_paid with _ | _
  · have hne : p.status ≠ PStatus.PAID := by
      intro hs
      have := hiff.mpr hs
      rw [hb] at this
      cases this
    simp [hb, hne]
  · have hs := hiff.mp hb
    simp [hb, hs]

/-- Witness for C1 at a concrete run: a fresh wallet, one BNPL purchase of
₵100 with ₵20 down, then a partial repayment of ₵50 three days later. -/
theorem credit_balance_conservation_witness :
    Inv freshSt ∧
    (runOps freshSt [Op.purchase 0 1 100 20, Op.repay 3 50]).wallet.credit_balance
      = allSum ((runOps freshSt [Op.purchase 0 1 100 20, Op.repay 3 50]).purchases.filter
          (fun p => !(p.status == PStatus.PAID))) :=
  ⟨Inv_freshSt,
    credit_balance_conservation freshSt Inv_freshSt [Op.purchase 0 1 100 20, Op.repay 3 50]⟩

theorem weeksOverdue_700_0 : weeksOverdue 700 0 = 100 := by
  unfold weeksOverdue
  rw [Int.fdiv_eq_ediv _ (by norm_num)]
  omega

theorem interestOn_one : interestOn (1 : ℚ) = 1/20 := by
  unfold interestOn
  rw [q2_eval_exact (n := 5) (by norm_num)]
  norm_num

theorem penaltyOn_700_0_one : penaltyOn 700 0 1 = 1 := by
  unfold penaltyOn
  rw [weeksOverdue_700_0]
  rw [if_pos (show (0:ℤ) < 700 by norm_num), if_pos (show (0:ℤ) < 100 by norm_num)]
  rw [q2_eval_exact (n := 100) (by push_cast; ring)]
  norm_num

theorem dueNow_oneLine : dueNow 700 oneLinePurchase = 41/20 := by
  unfold dueNow
  rw [show oneLinePurchase.remaining_amount = (1:ℚ) from rfl,
    show oneLinePurchase.due_date = (0:ℤ) from rfl,
    interestOn_one, penaltyOn_700_0_one]
  rw [q2_eval_exact (n := 205) (by push_cast; ring)]
  norm_num

theorem principalPaid_oneLine : principalPaid 700 (51/25) oneLinePurchase = 1 := by
  unfold principalPaid
  rw [show oneLinePurchase.remaining_amount = (1:ℚ) from rfl, dueNow_oneLine]
  rw [q2_eval_gt (f := 99) (by norm_num) (by norm_num) (by norm_num)]
  norm_num

theorem repayStep_oneLine :
    repayStep 700 (initLoop oneLineSt (51/25)) oneLinePurchase
      = { remaining_payment := 0, credit_balance := 0, credit_score := 603,
          total_interest := 1/20, total_penalty := 1,
          done := [{ oneLinePurchase with remaining_amount := 0 }] } := by
  unfold repayStep
  rw [if_neg (show ¬((initLoop oneLineSt (51/25)).remaining_payment ≤ 0) from by
    rw [show (initLoop oneLineSt (51/25)).remaining_payment = (51:ℚ)/25 from rfl]
    norm_num)]
  rw [if_neg (show ¬(oneLinePurchase.remaining_amount ≤ 0) from by
    rw [show oneLinePurchase.remaining_amount = (1:ℚ) from rfl]
    norm_num)]
  rw [if_neg (show ¬(dueNow 700 oneLinePurchase
      ≤ (initLoop oneLineSt (51/25)).remaining_payment) from by
    rw [dueNow_oneLine,
      show (initLoop oneLineSt (51/25)).remaining_payment = (51:ℚ)/25 from rfl]
    norm_num)]
  rw [show (initLoop oneLineSt (51/25)).remaining_payment = (51:ℚ)/25 from rfl]
  rw [principalPaid_oneLine]
  simp only [LoopSt.mk.injEq]
  refine ⟨trivial, ?_, ?_, ?_, ?_, ?_⟩
  · rw [show (initLoop oneLineSt (51/25)).credit_balance = (1:ℚ) from rfl]
    norm_num
  · rw [show (initLoop oneLineSt (51/25)).credit_score = (600:ℤ) from rfl]
    omega
  · rw [show (initLoop oneLineSt (51/25)).total_interest = (0:ℚ) from rfl,
      show oneLinePurchase.remaining_amount = (1:ℚ) from rfl, interestOn_one]
    norm_num
  · rw [show (initLoop oneLineSt (51/25)).total_penalty = (0:ℚ) from rfl,
      show oneLinePurchase.remaining_amount = (1:ℚ) from rfl,
      show oneLinePurchase.due_date = (0:ℤ) from rfl, penaltyOn_700_0_one]
    norm_num
  · rw [show (initLoop oneLineSt (51/25)).done = ([] : List CreditPurchase) from rfl]
    rw [show oneLinePurchase.remaining_amount = (1:ℚ) from rfl]
    rw [show (1:ℚ) - 1 = 0 by norm_num, q2_zero]
    rfl

theorem activesOf_oneLineSt : activesOf oneLineSt = [oneLinePurchase] := by
  unfold activesOf
  rw [show oneLineSt.purchases = [oneLinePurchase] from rfl]
  rw [show [oneLinePurchase].filter (fun p => !p.is_paid) = [oneLinePurchase] from by
    simp [show oneLinePurchase.is_paid = false from rfl]]
  rfl

theorem finLoop_oneLine :
    finLoop 700 oneLineSt (51/25)
      = { remaining_payment := 0, credit_balance := 0, credit_score := 603,
          total_interest := 1/20, total_penalty := 1,
          done := [{ oneLinePurchase with remaining_amount := 0 }] } := by
  unfold finLoop
  rw [activesOf_oneLineSt]
  rw [List.foldl_cons, List.foldl_nil]
  exact repayStep_oneLine

theorem repay_credit_oneLine :
    repay_credit 700 oneLineSt (51/25)
      = .ok { st := { wallet := { oneLineSt.wallet with
                        balance := oneLineSt.wallet.balance - 51/25
                        credit_balance := 0
                        credit_score := 603 }
                      purchases := [{ oneLinePurchase with remaining_amount := 0 }]
                      ledger := oneLineSt.ledger ++ [⟨"repay", 51/25⟩] }
              total_interest := 1/20
              total_penalty := 1 } := by
  unfold repay_credit
  rw [if_neg (show ¬((51:ℚ)/25 ≤ 0) by norm_num)]
  rw [if_neg (show ¬(oneLineSt.wallet.balance < 51/25) from by
    rw [show oneLineSt.wallet.balance = (10:ℚ) from rfl]
    norm_num)]
  rw [if_neg (show ¬((oneLineSt.purchases.filter (fun p => !p.is_paid)).isEmpty = true) from by
    rw [show oneLineSt.purchases = [oneLinePurchase] from rfl]
    simp [show oneLinePurchase.is_paid = false from rfl])]
  rw [finLoop_oneLine]
  rw [show oneLineSt.purchases.filter (fun p => p.is_paid) = [] from by
    rw [show oneLineSt.purchases = [oneLinePurchase] from rfl]
    simp [show oneLinePurchase.is_paid = false from rfl]]
  rfl

/-- C4 counterexample: a repayment of ₵2.04 against a single line of
remaining principal ₵1.00 that is 100 weeks overdue (total due ₵2.05)
takes the partial branch, whose rounded `principal_paid` is the full
₵1.00: the line ends with `remaining_amount = 0` yet `status = ACTIVE`
and `is_paid = False`, contradicting "once it reaches 0 the line
transitions to status PAID". -/
theorem remaining_zero_stays_active_cex :
    (repay_credit 700 oneLineSt (51/25)).map
        (fun r => r.st.purchases.map (fun p => (p.remaining_amount, p.status, p.is_paid)))
      = .ok [((0 : ℚ), PStatus.ACTIVE, false)] := by
  rw [repay_credit_oneLine]
  rfl

/-- C4 amended: across any sequence of operations from a state satisfying
the ledger invariant, each credit line's `remaining_amount` never
increases and a PAID line stays PAID (it never returns to ACTIVE); however
a line whose remaining amount reaches 0 through the partial-payment branch
is only marked PAID by the next repayment that scans it (see the
counterexample). -/
theorem remaining_monotone_and_paid_terminal (st : St) (hInv : Inv st)
    (ops : List Op) :
    ∀ p ∈ st.purchases, ∃ q ∈ (runOps st ops).purchases,
      q.id = p.id ∧ q.remaining_amount ≤ p.remaining_amount ∧
        (p.is_paid = true → q.is_paid = true ∧ q.status = PStatus.PAID) :=
  runOps_tracks hInv ops

/-- C2: oldest-first allocation — a repayment walks the user's active
credit lines in ascending `due_date` order; with two active lines of due
dates D1 < D2 and a payment large enough to fully settle only the first,
the D1 line is fully settled (PAID, remaining 0) and the D2 line is not,
regardless of the order the two rows are stored in and of their sizes. -/
theorem oldest_first_allocation
    (today : ℤ) (st : St) (p1 p2 : CreditPurchase) (amount : ℚ)
    (hpurch : st.purchases = [p1, p2] ∨ st.purchases = [p2, p1])
    (hd : p1.due_date < p2.due_date)
    (h1np : p1.is_paid = false) (h2np : p2.is_paid = false)
    (h1pos : 0 < p1.remaining_amount) (h2pos : 0 < p2.remaining_amount)
    (hpos : 0 < amount) (hbal : amount ≤ st.wallet.balance)
    (h1due : dueNow today p1 ≤ amount)
    (h2due : amount - dueNow today p1 < dueNow today p2) :
    ∃ q : CreditPurchase,
      (repay_credit today st amount).toOption.map (fun r => r.st.purchases)
        = some [{ p1 with remaining_amount := 0, is_paid := true, status := .PAID }, q]
      ∧ q.id = p2.id ∧ q.is_paid = false := by
  have hfilter : st.purchases.filter (fun p => !p.is_paid) = [p1, p2]
      ∨ st.purchases.filter (fun p => !p.is_paid) = [p2, p1] := by
    rcases hpurch with hp | hp
    · exact Or.inl (by rw [hp]; simp [h1np, h2np])
    · exact Or.inr (by rw [hp]; simp [h1np, h2np])
  have hpaidfilter : st.purchases.filter (fun p => p.is_paid) = [] := by
    rcases hpurch with hp | hp <;> rw [hp] <;> simp [h1np, h2np]
  have hact : activesOf st = [p1, p2] := by
    unfold activesOf
    rcases hfilter with hf | hf
    · rw [hf]
      simp only [sortByDue, insertByDue]
      rw [if_neg (not_le.mpr hd)]
    · rw [hf]
      simp only [sortByDue, insertByDue]
      rw [if_pos (le_of_lt hd)]
  have hs1 : repayStep today (initLoop st amount) p1
      = { remaining_payment := amount - dueNow today p1
          credit_balance := st.wallet.credit_balance - p1.remaining_amount
          credit_score := min (st.wallet.credit_score + 10) 1000
          total_interest := 0 + interestOn p1.remaining_amount
          total_penalty := 0 + penaltyOn today p1.due_date p1.remaining_amount
          done := [{ p1 with remaining_amount := 0, is_paid := true, status := .PAID }] } := by
    unfold repayStep
    rw [if_neg (show ¬((initLoop st amount).remaining_payment ≤ 0) from not_le.mpr hpos)]
    rw [if_neg (not_le.mpr h1pos)]
    rw [if_pos (show dueNow today p1 ≤ (initLoop st amount).remaining_payment from h1due)]
    rfl
  have hnotempty :
      ¬((st.purchases.filter (fun p => !p.is_paid)).isEmpty = true) := by
    rcases hfilter with hf | hf <;> rw [hf] <;> simp
  by_cases hbr : amount - dueNow today p1 ≤ 0
  · -- the payment is exhausted exactly by line 1: line 2 hits the break
    have hfin : finLoop today st amount
        = { remaining_payment := amount - dueNow today p1
            credit_balance := st.wallet.credit_balance - p1.remaining_amount
            credit_score := min (st.wallet.credit_score + 10) 1000
            total_interest := 0 + interestOn p1.remaining_amount
            total_penalty := 0 + penaltyOn today p1.due_date p1.remaining_amount
            done := [{ p1 with remaining_amount := 0, is_paid := true, status := .PAID }, p2] } := by
      unfold finLoop
      rw [hact]
      simp only [List.foldl_cons, List.foldl_nil]
      rw [hs1]
      unfold repayStep
      rw [if_pos hbr]
      rfl
    refine ⟨p2, ?_, rfl, h2np⟩
    unfold repay_credit
    rw [if_neg (not_le.mpr hpos), if_neg (not_lt.mpr hbal), if_neg hnotempty]
    rw [hfin, hpaidfilter]
    rfl
  · -- line 2 is reached with money left but not enough: partial branch
    have hfin : finLoop today st amount
        = { remaining_payment := 0
            credit_balance := st.wallet.credit_balance - p1.remaining_amount
              - principalPaid today (amount - dueNow today p1) p2
            credit_score := min (min (st.wallet.credit_score + 10) 1000 + 3) 1000
            total_interest := 0 + interestOn p1.remaining_amount + interestOn p2.remaining_amount
            total_penalty := 0 + penaltyOn today p1.due_date p1.remaining_amount
              + penaltyOn today p2.due_date p2.remaining_amount
            done := [{ p1 with remaining_amount := 0, is_paid := true, status := .PAID },
              { p2 with remaining_amount := q2 (p2.remaining_amount - principalPaid today (amount - dueNow today p1) p2) }] } := by
      unfold finLoop
      rw [hact]
      simp only [List.foldl_cons, List.foldl_nil]
      rw [hs1]
      unfold repayStep
      rw [if_neg hbr]
      rw [if_neg (not_le.mpr h2pos)]
      rw [if_neg (not_le.mpr h2due)]
      rfl
    refine ⟨{ p2 with remaining_amount := q2 (p2.remaining_amount - principalPaid today (amount - dueNow today p1) p2) },
      ?_, rfl, h2np⟩
    unfold repay_credit
    rw [if_neg (not_le.mpr hpos), if_neg (not_lt.mpr hbal), if_neg hnotempty]
    rw [hfin, hpaidfilter]
    rfl

/-- First witness line: principal ₵47.62 remaining, due day 5
(amount due with 5% interest: exactly ₵50.00). -/
def wLine1 : CreditPurchase := ⟨1, 60, 10, 2381/50, 2381/50, 5, 1, 5, .ACTIVE, false⟩

/-- Second witness line: principal ₵95.24 remaining, due day 10
(amount due with 5% interest: exactly ₵100.00). -/
def wLine2 : CreditPurchase := ⟨2, 120, 25, 2381/25, 2381/25, 5, 1, 10, .ACTIVE, false⟩

/-- Witness wallet holding both lines, stored newest-first. -/
def twoLineSt : St :=
  ⟨⟨200, 0, 7143/50, 500, 600⟩, [wLine2, wLine1], []⟩

theorem dueNow_wLine1 : dueNow 0 wLine1 = 50 := by
  unfold dueNow interestOn penaltyOn
  rw [show wLine1.remaining_amount = (2381:ℚ)/50 from rfl,
    show wLine1.due_date = (5:ℤ) from rfl]
  rw [if_neg (show ¬((5:ℤ) < 0) by norm_num)]
  rw [q2_eval_lt (x := (2381:ℚ)/50 * (5/100)) (f := 238)
    (by norm_num) (by norm_num) (by norm_num)]
  rw [q2_eval_exact (n := 5000) (by push_cast; ring_nf)]
  norm_num

theorem dueNow_wLine2 : dueNow 0 wLine2 = 100 := by
  unfold dueNow interestOn penaltyOn
  rw [show wLine2.remaining_amount = (2381:ℚ)/25 from rfl,
    show wLine2.due_date = (10:ℤ) from rfl]
  rw [if_neg (show ¬((10:ℤ) < 0) by norm_num)]
  rw [q2_eval_lt (x := (2381:ℚ)/25 * (5/100)) (f := 476)
    (by norm_num) (by norm_num) (by norm_num)]
  rw [q2_eval_exact (n := 10000) (by push_cast; ring_nf)]
  norm_num

/-- Witness for C2: the spec's scenario 5 — two lines with amounts due
₵50 and ₵100, the smaller one due earlier but stored second, and a
repayment of ₵60: only the earlier-due line is settled. -/
theorem oldest_first_allocation_witness :
    ∃ q : CreditPurchase,
      (repay_credit 0 twoLineSt 60).toOption.map (fun r => r.st.purchases)
        = some [{ wLine1 with remaining_amount := 0, is_paid := true, status := .PAID }, q]
      ∧ q.id = wLine2.id ∧ q.is_paid = false := by
  have h1due : dueNow 0 wLine1 ≤ 60 := by rw [dueNow_wLine1]; norm_num
  have h2due : (60:ℚ) - dueNow 0 wLine1 < dueNow 0 wLine2 := by
    rw [dueNow_wLine1, dueNow_wLine2]; norm_num
  exact oldest_first_allocation 0 twoLineSt wLine1 wLine2 60
    (Or.inr rfl) (by decide) rfl rfl
    ((by norm_num : (0:ℚ) < 2381/50) : 0 < wLine1.remaining_amount)
    ((by norm_num : (0:ℚ) < 2381/25) : 0 < wLine2.remaining_amount)
    (by norm_num)
    ((by norm_num : (60:ℚ) ≤ 200) : 60 ≤ twoLineSt.wallet.balance)
    h1due h2due

/-- C5: opening a credit line validates in this exact order, each failure
producing its own distinct error — (a) non-positive amount, (b) down
payment below the quantized 20% minimum, (c) cash balance below the down
payment, (d) principal not positive, (e) credit limit exceeded — and any
validation failure leaves the wallet, credit lines and ledger unchanged
(the rejected call returns before any state is written). -/
theorem purchase_validation_order (today : ℤ) (newId : ℕ) (st : St)
    (amount dp : ℚ) :
    (amount ≤ 0 →
      make_credit_purchase today newId st amount dp = .error .InvalidAmount) ∧
    (0 < amount → dp < minDown amount →
      make_credit_purchase today newId st amount dp = .error .DownPaymentTooLow) ∧
    (0 < amount → minDown amount ≤ dp → st.wallet.balance < dp →
      make_credit_purchase today newId st amount dp = .error .InsufficientFunds) ∧
    (0 < amount → minDown amount ≤ dp → dp ≤ st.wallet.balance →
      creditPrincipal amount dp ≤ 0 →
      make_credit_purchase today newId st amount dp = .error .DownPaymentCoversFull) ∧
    (0 < amount → minDown amount ≤ dp → dp ≤ st.wallet.balance →
      0 < creditPrincipal amount dp →
      st.wallet.credit_limit < st.wallet.credit_balance + creditPrincipal amount dp →
      make_credit_purchase today newId st amount dp = .error .CreditLimitExceeded) ∧
    (∀ e, make_credit_purchase today newId st amount dp = .error e →
      applyOp st (.purchase today newId amount dp) = st) := by
  refine ⟨?_, ?_, ?_, ?_, ?_, ?_⟩
  · intro h1
    unfold make_credit_purchase
    rw [if_pos h1]
  · intro h1 h2
    unfold make_credit_purchase
    rw [if_neg (not_le.mpr h1), if_pos h2]
  · intro h1 h2 h3
    unfold make_credit_purchase
    rw [if_neg (not_le.mpr h1), if_neg (not_lt.mpr h2), if_pos h3]
  · intro h1 h2 h3 h4
    unfold make_credit_purchase
    rw [if_neg (not_le.mpr h1), if_neg (not_lt.mpr h2), if_neg (not_lt.mpr h3),
      if_pos h4]
  · intro h1 h2 h3 h4 h5
    unfold make_credit_purchase
    rw [if_neg (not_le.mpr h1), if_neg (not_lt.mpr h2), if_neg (not_lt.mpr h3),
      if_neg (not_le.mpr h4), if_pos h5]
  · intro e he
    simp only [applyOp, he]

theorem minDown_100 : minDown 100 = 20 := by
  unfold minDown
  rw [q2_eval_exact (n := 2000) (by norm_num)]
  norm_num

theorem minDown_600 : minDown 600 = 120 := by
  unfold minDown
  rw [q2_eval_exact (n := 12000) (by norm_num)]
  norm_num

theorem minDown_700 : minDown 700 = 140 := by
  unfold minDown
  rw [q2_eval_exact (n := 14000) (by norm_num)]
  norm_num

theorem creditPrincipal_100_100 : creditPrincipal 100 100 = 0 := by
  unfold creditPrincipal
  rw [show (100:ℚ) - 100 = 0 by norm_num, q2_zero]

theorem creditPrincipal_700_140 : creditPrincipal 700 140 = 560 := by
  unfold creditPrincipal
  rw [q2_eval_exact (n := 56000) (by norm_num)]
  norm_num

/-- A wallet with plenty of cash but the default ₵500 credit limit. -/
def bigCashSt : St :=
  { wallet := { balance := 1000, savings_balance := 0, credit_balance := 0,
                credit_limit := 500, credit_score := 600 }
    purchases := []
    ledger := [] }

/-- Witness for C5: one concrete instance of each rejection, and that a
rejected call leaves the state unchanged. -/
theorem purchase_validation_order_witness :
    make_credit_purchase 0 1 freshSt (-1) 0 = .error .InvalidAmount ∧
    make_credit_purchase 0 1 freshSt 100 19 = .error .DownPaymentTooLow ∧
    make_credit_purchase 0 1 freshSt 600 120 = .error .InsufficientFunds ∧
    make_credit_purchase 0 1 freshSt 100 100 = .error .DownPaymentCoversFull ∧
    make_credit_purchase 0 1 bigCashSt 700 140 = .error .CreditLimitExceeded ∧
    applyOp freshSt (.purchase 0 1 (-1) 0) = freshSt := by
  have h1 := (purchase_validation_order 0 1 freshSt (-1) 0).1 (by norm_num)
  refine ⟨h1, ?_, ?_, ?_, ?_,
    (purchase_validation_order 0 1 freshSt (-1) 0).2.2.2.2.2 _ h1⟩
  · exact (purchase_validation_order 0 1 freshSt 100 19).2.1 (by norm_num)
      (by rw [minDown_100]; norm_num)
  · exact (purchase_validation_order 0 1 freshSt 600 120).2.2.1 (by norm_num)
      (by rw [minDown_600])
      ((by norm_num : (100:ℚ) < 120) : freshSt.wallet.balance < 120)
  · exact (purchase_validation_order 0 1 freshSt 100 100).2.2.2.1 (by norm_num)
      (by rw [minDown_100]; norm_num)
      ((by norm_num : (100:ℚ) ≤ 100) : (100:ℚ) ≤ freshSt.wallet.balance)
      (by rw [creditPrincipal_100_100])
  · exact (purchase_validation_order 0 1 bigCashSt 700 140).2.2.2.2.1 (by norm_num)
      (by rw [minDown_700])
      ((by norm_num : (140:ℚ) ≤ 1000) : (140:ℚ) ≤ bigCashSt.wallet.balance)
      (by rw [creditPrincipal_700_140]; norm_num)
      (by rw [creditPrincipal_700_140]
          show (500:ℚ) < 0 + 560
          norm_num)

/-- C7: `update_credit_score` applies the mutually exclusive chain
(+10 if `credit_balance == 0`, else −15 if above 80% of the limit, else
+5 if below 50% of the limit), then — as an independent sequential check,
not an exclusive branch — a further +3 when `savings_balance` exceeds
half the credit balance; each adjustment is clamped (min 1000 on the
increments, max 300 on the decrement).  A wallet with zero credit balance
and positive savings gets both +10 and +3 in one call (capped at 1000),
and from any score in [300, 1000] the result stays in [300, 1000]. -/
theorem credit_score_policy (w : Wallet) :
    (300 ≤ w.credit_score → w.credit_score ≤ 1000 →
      300 ≤ (update_credit_score w).credit_score ∧
        (update_credit_score w).credit_score ≤ 1000) ∧
    (w.credit_balance = 0 → 0 < w.savings_balance →
      (update_credit_score w).credit_score
        = min (min (w.credit_score + 10) 1000 + 3) 1000) ∧
    (w.credit_balance ≠ 0 → w.credit_limit * (8/10) < w.credit_balance →
      ¬(w.credit_balance * (5/10) < w.savings_balance) →
      (update_credit_score w).credit_score = max (w.credit_score - 15) 300) ∧
    (w.credit_balance ≠ 0 → ¬(w.credit_limit * (8/10) < w.credit_balance) →
      w.credit_balance < w.credit_limit * (5/10) →
      ¬(w.credit_balance * (5/10) < w.savings_balance) →
      (update_credit_score w).credit_score = min (w.credit_score + 5) 1000) ∧
    (w.credit_balance ≠ 0 → ¬(w.credit_limit * (8/10) < w.credit_balance) →
      w.credit_balance < w.credit_limit * (5/10) →
      w.credit_balance * (5/10) < w.savings_balance →
      (update_credit_score w).credit_score
        = min (min (w.credit_score + 5) 1000 + 3) 1000) := by
  refine ⟨?_, ?_, ?_, ?_, ?_⟩
  · intro hlo hhi
    unfold update_credit_score scoreStep1
    split_ifs <;> simp only <;> omega
  · intro hz hs
    have hcond : w.credit_balance * (5/10) < w.savings_balance := by
      rw [hz]; linarith
    unfold update_credit_score scoreStep1
    rw [if_pos hz, if_pos hcond]
  · intro hnz h8 hns
    unfold update_credit_score scoreStep1
    rw [if_neg hnz, if_pos h8, if_neg hns]
  · intro hnz h8 h5 hns
    unfold update_credit_score scoreStep1
    rw [if_neg hnz, if_neg h8, if_pos h5, if_neg hns]
  · intro hnz h8 h5 hs
    unfold update_credit_score scoreStep1
    rw [if_neg hnz, if_neg h8, if_pos h5, if_pos hs]

/-- Witness for C7: zero credit balance, positive savings, score 600 —
the call lands on 613 (= 600 + 10 + 3) and stays within the bounds. -/
theorem credit_score_policy_witness :
    (update_credit_score ⟨0, 50, 0, 500, 600⟩).credit_score
        = min (min (600 + 10) 1000 + 3) 1000 ∧
    300 ≤ (update_credit_score ⟨0, 50, 0, 500, 600⟩).credit_score ∧
    (update_credit_score ⟨0, 50, 0, 500, 600⟩).credit_score ≤ 1000 := by
  have hb := (credit_score_policy ⟨0, 50, 0, 500, 600⟩).1
    (by norm_num) (by norm_num)
  have hc := (credit_score_policy ⟨0, 50, 0, 500, 600⟩).2.1
    (by norm_num) (by norm_num)
  exact ⟨hc, hb.1, hb.2⟩

/-- The interest formula the spec prescribes for one line, using the
line's STORED `interest_rate`:
`round(remaining_principal * interest_rate / 100, 2)`. -/
def specInterestOn (p : CreditPurchase) : ℚ :=
  q2 (p.remaining_amount * p.interest_rate / 100)

/-- The penalty formula the spec prescribes, using the line's STORED
`penalty_rate` and whole weeks overdue. -/
def specPenaltyOn (today : ℤ) (p : CreditPurchase) : ℚ :=
  if p.due_date < today then
    q2 (p.remaining_amount * p.penalty_rate / 100
      * (((today - p.due_date).fdiv 7 : ℤ) : ℚ))
  else 0

/-- A line whose stored `interest_rate` is 10% and `penalty_rate` 2%. -/
def rate10Line : CreditPurchase := ⟨1, 120, 20, 100, 100, 10, 2, 14, .ACTIVE, false⟩

/-- A wallet owing only `rate10Line`. -/
def rate10St : St :=
  ⟨⟨200, 0, 100, 500, 600⟩, [rate10Line], []⟩

theorem interestOn_100 : interestOn (100:ℚ) = 5 := by
  unfold interestOn
  rw [q2_eval_exact (n := 500) (by norm_num)]
  norm_num

theorem penaltyOn_0_14_100 : penaltyOn 0 14 (100:ℚ) = 0 := by
  unfold penaltyOn
  rw [if_neg (show ¬((14:ℤ) < 0) by norm_num)]

theorem dueNow_rate10 : dueNow 0 rate10Line = 105 := by
  unfold dueNow
  rw [show rate10Line.remaining_amount = (100:ℚ) from rfl,
    show rate10Line.due_date = (14:ℤ) from rfl, interestOn_100, penaltyOn_0_14_100]
  rw [q2_eval_exact (n := 10500) (by norm_num)]
  norm_num

theorem repayStep_rate10 :
    repayStep 0 (initLoop rate10St 105) rate10Line
      = { remaining_payment := 0, credit_balance := 0, credit_score := 610,
          total_interest := 5, total_penalty := 0,
          done := [{ rate10Line with remaining_amount := 0, is_paid := true, status := .PAID }] } := by
  unfold repayStep
  rw [if_neg (show ¬((initLoop rate10St 105).remaining_payment ≤ 0) from by
    rw [show (initLoop rate10St 105).remaining_payment = (105:ℚ) from rfl]
    norm_num)]
  rw [if_neg (show ¬(rate10Line.remaining_amount ≤ 0) from by
    rw [show rate10Line.remaining_amount = (100:ℚ) from rfl]
    norm_num)]
  rw [if_pos (show dueNow 0 rate10Line ≤ (initLoop rate10St 105).remaining_payment from by
    rw [dueNow_rate10, show (initLoop rate10St 105).remaining_payment = (105:ℚ) from rfl])]
  simp only [LoopSt.mk.injEq]
  refine ⟨?_, ?_, ?_, ?_, ?_, ?_⟩
  · rw [show (initLoop rate10St 105).remaining_payment = (105:ℚ) from rfl, dueNow_rate10]
    norm_num
  · rw [show (initLoop rate10St 105).credit_balance = (100:ℚ) from rfl,
      show rate10Line.remaining_amount = (100:ℚ) from rfl]
    norm_num
  · rw [show (initLoop rate10St 105).credit_score = (600:ℤ) from rfl]
    omega
  · rw [show (initLoop rate10St 105).total_interest = (0:ℚ) from rfl,
      show rate10Line.remaining_amount = (100:ℚ) from rfl, interestOn_100]
    norm_num
  · rw [show (initLoop rate10St 105).total_penalty = (0:ℚ) from rfl,
      show rate10Line.remaining_amount = (100:ℚ) from rfl,
      show rate10Line.due_date = (14:ℤ) from rfl, penaltyOn_0_14_100]
    norm_num
  · rfl

theorem repay_credit_rate10 :
    repay_credit 0 rate10St 105
      = .ok { st := { wallet := { rate10St.wallet with
                        balance := rate10St.wallet.balance - 105
                        credit_balance := 0
                        credit_score := 610 }
                      purchases := [{ rate10Line with remaining_amount := 0, is_paid := true, status := .PAID }]
                      ledger := rate10St.ledger ++ [⟨"repay", 105⟩] }
              total_interest := 5
              total_penalty := 0 } := by
  unfold repay_credit
  rw [if_neg (show ¬((105:ℚ) ≤ 0) by norm_num)]
  rw [if_neg (show ¬(rate10St.wallet.balance < 105) from by
    rw [show rate10St.wallet.balance = (200:ℚ) from rfl]
    norm_num)]
  rw [if_neg (show ¬((rate10St.purchases.filter (fun p => !p.is_paid)).isEmpty = true) from by
    rw [show rate10St.purchases = [rate10Line] from rfl]
    simp [show rate10Line.is_paid = false from rfl])]
  rw [show finLoop 0 rate10St 105
      = { remaining_payment := 0, credit_balance := 0, credit_score := 610,
          total_interest := 5, total_penalty := 0,
          done := [{ rate10Line with remaining_amount := 0, is_paid := true, status := .PAID }] } from by
    unfold finLoop
    rw [show activesOf rate10St = [rate10Line] from by
      unfold activesOf
      rw [show rate10St.purchases = [rate10Line] from rfl]
      rw [show [rate10Line].filter (fun p => !p.is_paid) = [rate10Line] from by
        simp [show rate10Line.is_paid = false from rfl]]
      rfl]
    rw [List.foldl_cons, List.foldl_nil]
    exact repayStep_rate10]
  rw [show rate10St.purchases.filter (fun p => p.is_paid) = [] from by
    rw [show rate10St.purchases = [rate10Line] from rfl]
    simp [show rate10Line.is_paid = false from rfl]]
  rfl

/-- C3 counterexample: repaying the line whose stored `interest_rate` is
10% charges interest ₵5.00 — the hardcoded 5% of views.py line 272 — while
the claimed formula `round(remaining_principal * interest_rate / 100, 2)`
with the stored rate gives ₵10.00. -/
theorem interest_stored_rate_cex :
    (repay_credit 0 rate10St 105).toOption.map (fun r => r.total_interest) = some 5
    ∧ specInterestOn rate10Line = 10 ∧ ((5:ℚ) ≠ 10) := by
  refine ⟨?_, ?_, by norm_num⟩
  · rw [repay_credit_rate10]
    rfl
  · unfold specInterestOn
    rw [show rate10Line.remaining_amount = (100:ℚ) from rfl,
      show rate10Line.interest_rate = (10:ℚ) from rfl]
    rw [q2_eval_exact (n := 1000) (by norm_num)]
    norm_num

/-- C3 amended: for every line processed with payment remaining, the
repayment loop charges `interest = round(remaining * 5/100, 2)` and
`penalty = round(remaining * 1/100 * floor((today-due).days/7), 2)` when
overdue a whole week (else 0) — the rates 5% and 1% are hardcoded; they
agree with the claim's stored-rate formulas exactly when the line's
stored `interest_rate` is 5 and `penalty_rate` is 1 (the values every
creation site writes). -/
theorem interest_penalty_hardcoded (today : ℤ) (s : LoopSt) (p : CreditPurchase)
    (hrp : 0 < s.remaining_payment) (hpos : 0 < p.remaining_amount) :
    (repayStep today s p).total_interest
      = s.total_interest + q2 (p.remaining_amount * (5/100)) ∧
    (repayStep today s p).total_penalty
      = s.total_penalty +
        (if p.due_date < today ∧ 0 < (today - p.due_date).fdiv 7
          then q2 (p.remaining_amount * (1/100) * (((today - p.due_date).fdiv 7 : ℤ) : ℚ))
          else 0) ∧
    (p.interest_rate = 5 →
      (repayStep today s p).total_interest = s.total_interest + specInterestOn p) ∧
    (p.penalty_rate = 1 →
      (repayStep today s p).total_penalty = s.total_penalty + specPenaltyOn today p) := by
  have hpen : penaltyOn today p.due_date p.remaining_amount
      = (if p.due_date < today ∧ 0 < (today - p.due_date).fdiv 7
          then q2 (p.remaining_amount * (1/100) * (((today - p.due_date).fdiv 7 : ℤ) : ℚ))
          else 0) := by
    unfold penaltyOn weeksOverdue
    by_cases h1 : p.due_date < today
    · by_cases h2 : 0 < (today - p.due_date).fdiv 7
      · rw [if_pos h1, if_pos h2, if_pos ⟨h1, h2⟩]
      · rw [if_pos h1, if_neg h2, if_neg (fun h => h2 h.2)]
    · rw [if_neg h1, if_neg (fun h => h1 h.1)]
  have hti : (repayStep today s p).total_interest
      = s.total_interest + interestOn p.remaining_amount := by
    unfold repayStep
    rw [if_neg (not_le.mpr hrp), if_neg (not_le.mpr hpos)]
    split_ifs <;> rfl
  have htp : (repayStep today s p).total_penalty
      = s.total_penalty + penaltyOn today p.due_date p.remaining_amount := by
    unfold repayStep
    rw [if_neg (not_le.mpr hrp), if_neg (not_le.mpr hpos)]
    split_ifs <;> rfl
  refine ⟨hti, by rw [htp, hpen], ?_, ?_⟩
  · intro hr5
    rw [hti]
    unfold specInterestOn interestOn
    rw [hr5]
    exact congrArg (fun x => s.total_interest + q2 x) (by ring)
  · intro hr1
    rw [htp, hpen]
    unfold specPenaltyOn
    rw [hr1]
    by_cases h1 : p.due_date < today
    · by_cases h2 : 0 < (today - p.due_date).fdiv 7
      · rw [if_pos ⟨h1, h2⟩, if_pos h1]
        exact congrArg (fun x => s.total_penalty + q2 x) (by ring)
      · have hd : 0 ≤ today - p.due_date := by omega
        have hge : 0 ≤ (today - p.due_date).fdiv 7 :=
          Int.fdiv_nonneg hd (by norm_num)
        have h0 : (today - p.due_date).fdiv 7 = 0 := le_antisymm (not_lt.mp h2) hge
        rw [if_neg (fun h => h2 h.2), if_pos h1, h0]
        rw [show p.remaining_amount * 1 / 100 * (((0:ℤ) : ℚ)) = 0 from by
          push_cast; ring]
        rw [q2_zero]
    · rw [if_neg (fun h => h1 h.1), if_neg h1]

/-- Witness for C3's amended theorem at the counterexample's loop entry. -/
theorem interest_penalty_hardcoded_witness :
    (repayStep 0 (initLoop rate10St 105) rate10Line).total_interest
      = (initLoop rate10St 105).total_interest
        + q2 (rate10Line.remaining_amount * (5/100)) ∧
    (rate10Line.penalty_rate = 1 →
      (repayStep 0 (initLoop rate10St 105) rate10Line).total_penalty
        = (initLoop rate10St 105).total_penalty + specPenaltyOn 0 rate10Line) := by
  have h := interest_penalty_hardcoded 0 (initLoop rate10St 105) rate10Line
    ((by norm_num : (0:ℚ) < 105) : 0 < (initLoop rate10St 105).remaining_payment)
    ((by norm_num : (0:ℚ) < 100) : 0 < rate10Line.remaining_amount)
  exact ⟨h.1, h.2.2.2⟩

/-- Half-up rounding to two decimal places — the rounding the spec's
policy prescribes ("standard half-up rounding") — for comparison with
`q2`, which models `Decimal.quantize`'s default ROUND_HALF_EVEN.
(For the nonnegative amounts involved, `floor(100x + 1/2)` is exactly
ROUND_HALF_UP.) -/
def roundHalfUp2 (q : ℚ) : ℚ := (⌊q * 100 + 1/2⌋ : ℚ) / 100

/-- A line of remaining principal ₵2.50: its 5% interest 0.125 sits
exactly on a rounding tie. -/
def halfLine : CreditPurchase := ⟨1, 5, 5/2, 5/2, 5/2, 5, 1, 14, .ACTIVE, false⟩

/-- A wallet owing only `halfLine`. -/
def halfSt : St := ⟨⟨10, 0, 5/2, 500, 600⟩, [halfLine], []⟩

theorem interestOn_half : interestOn ((5:ℚ)/2) = 3/25 := by
  unfold interestOn
  rw [q2_eval_half_even (f := 12) (by norm_num) (by norm_num) (by norm_num)
    (by norm_num)]
  norm_num

theorem dueNow_half : dueNow 0 halfLine = 131/50 := by
  unfold dueNow
  rw [show halfLine.remaining_amount = (5:ℚ)/2 from rfl,
    show halfLine.due_date = (14:ℤ) from rfl, interestOn_half]
  rw [show penaltyOn 0 14 ((5:ℚ)/2) = 0 from by
    unfold penaltyOn
    rw [if_neg (show ¬((14:ℤ) < 0) by norm_num)]]
  rw [q2_eval_exact (n := 262) (by norm_num)]
  norm_num

theorem repayStep_half :
    repayStep 0 (initLoop halfSt 3) halfLine
      = { remaining_payment := 3 - 131/50, credit_balance := 0, credit_score := 610,
          total_interest := 3/25, total_penalty := 0,
          done := [{ halfLine with remaining_amount := 0, is_paid := true, status := .PAID }] } := by
  unfold repayStep
  rw [if_neg (show ¬((initLoop halfSt 3).remaining_payment ≤ 0) from by
    rw [show (initLoop halfSt 3).remaining_payment = (3:ℚ) from rfl]
    norm_num)]
  rw [if_neg (show ¬(halfLine.remaining_amount ≤ 0) from by
    rw [show halfLine.remaining_amount = (5:ℚ)/2 from rfl]
    norm_num)]
  rw [if_pos (show dueNow 0 halfLine ≤ (initLoop halfSt 3).remaining_payment from by
    rw [dueNow_half, show (initLoop halfSt 3).remaining_payment = (3:ℚ) from rfl]
    norm_num)]
  simp only [LoopSt.mk.injEq]
  refine ⟨?_, ?_, ?_, ?_, ?_, ?_⟩
  · rw [show (initLoop halfSt 3).remaining_payment = (3:ℚ) from rfl, dueNow_half]
  · rw [show (initLoop halfSt 3).credit_balance = (5:ℚ)/2 from rfl,
      show halfLine.remaining_amount = (5:ℚ)/2 from rfl]
    norm_num
  · rw [show (initLoop halfSt 3).credit_score = (600:ℤ) from rfl]
    omega
  · rw [show (initLoop halfSt 3).total_interest = (0:ℚ) from rfl,
      show halfLine.remaining_amount = (5:ℚ)/2 from rfl, interestOn_half]
    norm_num
  · rw [show (initLoop halfSt 3).total_penalty = (0:ℚ) from rfl,
      show halfLine.remaining_amount = (5:ℚ)/2 from rfl,
      show halfLine.due_date = (14:ℤ) from rfl]
    rw [show penaltyOn 0 14 ((5:ℚ)/2) = 0 from by
      unfold penaltyOn
      rw [if_neg (show ¬((14:ℤ) < 0) by norm_num)]]
    norm_num
  · rfl

theorem repay_credit_half :
    repay_credit 0 halfSt 3
      = .ok { st := { wallet := { halfSt.wallet with
                        balance := halfSt.wallet.balance - 3
                        credit_balance := 0
                        credit_score := 610 }
                      purchases := [{ halfLine with remaining_amount := 0, is_paid := true, status := .PAID }]
                      ledger := halfSt.ledger ++ [⟨"repay", 3⟩] }
              total_interest := 3/25
              total_penalty := 0 } := by
  unfold repay_credit
  rw [if_neg (show ¬((3:ℚ) ≤ 0) by norm_num)]
  rw [if_neg (show ¬(halfSt.wallet.balance < 3) from by
    rw [show halfSt.wallet.balance = (10:ℚ) from rfl]
    norm_num)]
  rw [if_neg (show ¬((halfSt.purchases.filter (fun p => !p.is_paid)).isEmpty = true) from by
    rw [show halfSt.purchases = [halfLine] from rfl]
    simp [show halfLine.is_paid = false from rfl])]
  rw [show finLoop 0 halfSt 3
      = { remaining_payment := 3 - 131/50, credit_balance := 0, credit_score := 610,
          total_interest := 3/25, total_penalty := 0,
          done := [{ halfLine with remaining_amount := 0, is_paid := true, status := .PAID }] } from by
    unfold finLoop
    rw [show activesOf halfSt = [halfLine] from by
      unfold activesOf
      rw [show halfSt.purchases = [halfLine] from rfl]
      rw [show [halfLine].filter (fun p => !p.is_paid) = [halfLine] from by
        simp [show halfLine.is_paid = false from rfl]]
      rfl]
    rw [List.foldl_cons, List.foldl_nil]
    exact repayStep_half]
  rw [show halfSt.purchases.filter (fun p => p.is_paid) = [] from by
    rw [show halfSt.purchases = [halfLine] from rfl]
    simp [show halfLine.is_paid = false from rfl]]
  rfl

/-- C6 counterexample: on a line of remaining principal ₵2.50 the
repayment reports interest ₵0.12 — `Decimal.quantize`'s default banker's
rounding sends the tie 0.125 to the even cent — while the half-up rounding
the claim asserts gives ₵0.13. -/
theorem rounding_half_even_cex :
    (repay_credit 0 halfSt 3).toOption.map (fun r => r.total_interest) = some (3/25)
    ∧ roundHalfUp2 ((5/2) * (5/100)) = 13/100
    ∧ ((3:ℚ)/25 ≠ 13/100) := by
  refine ⟨?_, ?_, by norm_num⟩
  · rw [repay_credit_half]
    rfl
  · unfold roundHalfUp2
    rw [show ((5:ℚ)/2 * (5/100)) * 100 + 1/2 = ((13:ℤ) : ℚ) from by push_cast; norm_num]
    rw [Int.floor_intCast]
    norm_num

/-- C6 amended: every money quantity the purchase and repayment
computations produce — minimum down payment, principal, interest, penalty,
amount due, principal paid, new remaining principal — is quantized to two
decimal places at the point of computation (an exact multiple of ₵0.01 for
all inputs), but with ROUND_HALF_EVEN (Python `Decimal`'s default), not
half-up. -/
theorem rounding_two_decimals (today : ℤ) (pay amount dp : ℚ) (p : CreditPurchase) :
    is2dp (minDown amount) ∧ is2dp (creditPrincipal amount dp) ∧
    is2dp (interestOn p.remaining_amount) ∧
    is2dp (penaltyOn today p.due_date p.remaining_amount) ∧
    is2dp (dueNow today p) ∧ is2dp (principalPaid today pay p) ∧
    is2dp (q2 (p.remaining_amount - principalPaid today pay p)) := by
  refine ⟨is2dp_q2 _, is2dp_q2 _, is2dp_q2 _, ?_, is2dp_q2 _, is2dp_q2 _, is2dp_q2 _⟩
  unfold penaltyOn
  split_ifs
  · exact is2dp_q2 _
  · exact is2dp_zero
  · exact is2dp_zero

/-- The GET-preview's line (not overdue): remaining ₵100, due in 14 days. -/
def pcLine : CreditPurchase := ⟨1, 125, 25, 100, 100, 5, 1, 14, .ACTIVE, false⟩

/-- C8 counterexample: for an open line of remaining ₵100 that is not
overdue, `GET /wallet/credit-purchases` previews `total_due_preview =
₵100.00`, while the repayment algorithm's `amount_due_now` for the same
line on the same day is ₵105.00 — the preview omits the 5% interest term
entirely. -/
theorem preview_omits_interest_cex :
    total_due_preview 0 pcLine = 100 ∧ dueNow 0 pcLine = 105 ∧
    total_due_preview 0 pcLine ≠ dueNow 0 pcLine := by
  have h1 : total_due_preview 0 pcLine = 100 := by
    unfold total_due_preview
    rw [show pcLine.remaining_amount = (100:ℚ) from rfl,
      show pcLine.due_date = (14:ℤ) from rfl]
    rw [show ((0:ℤ) - 14).fdiv 7 = -2 from by
      rw [Int.fdiv_eq_ediv _ (by norm_num)]
      omega]
    rw [show max 0 (-2 : ℤ) = 0 from by omega]
    rw [q2_eval_exact (n := 10000) (by push_cast; norm_num)]
    norm_num
  have h2 : dueNow 0 pcLine = 105 := by
    unfold dueNow
    rw [show pcLine.remaining_amount = (100:ℚ) from rfl,
      show pcLine.due_date = (14:ℤ) from rfl, interestOn_100, penaltyOn_0_14_100]
    rw [q2_eval_exact (n := 10500) (by norm_num)]
    norm_num
  exact ⟨h1, h2, by rw [h1, h2]; norm_num⟩

/-- C8 amended: the GET preview equals the remaining principal times the
whole-week penalty multiplier, with no interest term; in particular, for
any line overdue less than one whole week the preview is exactly the
remaining principal while the repayment algorithm's `amount_due_now` is
the remaining principal plus the 5% interest. -/
theorem preview_no_interest (today : ℤ) (p : CreditPurchase)
    (h2dp : is2dp p.remaining_amount)
    (hw : (today - p.due_date).fdiv 7 ≤ 0) :
    total_due_preview today p = p.remaining_amount ∧
    dueNow today p = p.remaining_amount + interestOn p.remaining_amount := by
  constructor
  · unfold total_due_preview
    rw [show max 0 ((today - p.due_date).fdiv 7) = 0 from by omega]
    rw [show p.remaining_amount * (1 + (1/100) * (((0:ℤ) : ℚ))) = p.remaining_amount
      from by push_cast; ring]
    exact q2_of_is2dp h2dp
  · unfold dueNow
    rw [show penaltyOn today p.due_date p.remaining_amount = 0 from by
      unfold penaltyOn weeksOverdue
      split_ifs with h1 h2
      · omega
      · rfl
      · rfl]
    rw [show p.remaining_amount + interestOn p.remaining_amount + 0
      = p.remaining_amount + interestOn p.remaining_amount from by ring]
    exact q2_of_is2dp (is2dp_add h2dp (is2dp_q2 _))

/-- Witness for C8's amended theorem at the counterexample line. -/
theorem preview_no_interest_witness :
    total_due_preview 0 pcLine = pcLine.remaining_amount ∧
    dueNow 0 pcLine = pcLine.remaining_amount + interestOn pcLine.remaining_amount :=
  preview_no_interest 0 pcLine
    (⟨10000, by rw [show pcLine.remaining_amount = (100:ℚ) from rfl]; norm_num⟩ :
      is2dp pcLine.remaining_amount)
    (by rw [show pcLine.due_date = (14:ℤ) from rfl,
          Int.fdiv_eq_ediv _ (by norm_num)]
        omega)

theorem interestOn_zero : interestOn 0 = 0 := by
  unfold interestOn
  rw [show (0:ℚ) * (5/100) = 0 by ring, q2_zero]

theorem penaltyOn_zero_amt (today due : ℤ) : penaltyOn today due 0 = 0 := by
  unfold penaltyOn
  split_ifs
  · rw [show (0:ℚ) * (1/100) * ((weeksOverdue today due : ℤ) : ℚ) = 0 by ring, q2_zero]
  · rfl
  · rfl

theorem dueNow_of_zero {today : ℤ} {p : CreditPurchase}
    (h : p.remaining_amount = 0) : dueNow today p = 0 := by
  unfold dueNow
  rw [h, interestOn_zero, penaltyOn_zero_amt]
  rw [show (0:ℚ) + 0 + 0 = 0 by ring, q2_zero]

/-- Sum of `total_due_now` over a list of lines. -/
def allDue (today : ℤ) (l : List CreditPurchase) : ℚ :=
  (l.map (dueNow today)).sum

theorem allDue_nil (today : ℤ) : allDue today [] = 0 := rfl

theorem allDue_cons (today : ℤ) (p : CreditPurchase) (l : List CreditPurchase) :
    allDue today (p :: l) = dueNow today p + allDue today l := by
  simp [allDue]

theorem allDue_nonneg (today : ℤ) {l : List CreditPurchase}
    (h : ∀ p ∈ l, 0 ≤ p.remaining_amount) : 0 ≤ allDue today l := by
  induction l with
  | nil => simp [allDue_nil]
  | cons p l ih =>
      rw [allDue_cons]
      have h1 := dueNow_nonneg today (h p (List.mem_cons_self _ _))
      have h2 := ih (fun r hr => h r (List.mem_cons_of_mem _ hr))
      linarith

/-- When the payment strictly exceeds the total due of every line it will
meet, the loop settles every line in full: every saved row is PAID, the
credit balance drops by the whole remaining principal, and the leftover
payment survives the loop unconsumed. -/
theorem repayLoop_overpay (today : ℤ) (rest : List CreditPurchase) :
    ∀ s : LoopSt,
      (∀ p ∈ rest, goodP p ∧ p.is_paid = false) →
      allDue today rest < s.remaining_payment →
      (rest.foldl (repayStep today) s).credit_balance = s.credit_balance - allSum rest ∧
      ∃ out, (rest.foldl (repayStep today) s).done = s.done ++ out ∧
        (∀ q ∈ out, q.is_paid = true ∧ q.status = PStatus.PAID) ∧
        (rest.foldl (repayStep today) s).remaining_payment
          = s.remaining_payment - allDue today rest := by
  induction rest with
  | nil =>
      intro s _ _
      refine ⟨by simp [allSum_nil], [], by simp, ?_, by simp [allDue_nil]⟩
      intro q hq
      cases hq
  | cons p rest ih =>
      intro s h hlt
      obtain ⟨⟨hge, h2dp, hiff⟩, hnp⟩ := h p (List.mem_cons_self _ _)
      have hrest := fun r hr => h r (List.mem_cons_of_mem _ hr)
      have hAnn : 0 ≤ allDue today rest :=
        allDue_nonneg today (fun r hr => (hrest r hr).1.1)
      have hdp : 0 ≤ dueNow today p := dueNow_nonneg today hge
      rw [allDue_cons] at hlt
      have hrp : 0 < s.remaining_payment := by linarith
      rw [List.foldl_cons]
      by_cases hz : p.remaining_amount ≤ 0
      · -- skip branch: the zero-remaining line is marked PAID for free
        have h0 : p.remaining_amount = 0 := le_antisymm hz hge
        have hstep : repayStep today s p
            = { s with done := s.done ++ [{ p with is_paid := true, status := .PAID }] } := by
          unfold repayStep
          rw [if_neg (not_le.mpr hrp), if_pos hz]
        rw [hstep]
        have hdz : dueNow today p = 0 := dueNow_of_zero h0
        obtain ⟨hcb, out, hdone, hpaid, hrpf⟩ :=
          ih { s with done := s.done ++ [{ p with is_paid := true, status := .PAID }] }
            hrest (by simp only; rw [hdz] at hlt; linarith)
        refine ⟨?_, { p with is_paid := true, status := .PAID } :: out, ?_, ?_, ?_⟩
        · rw [hcb]
          simp only [allSum_cons, h0]
          ring
        · rw [hdone]
          simp
        · intro q hq
          rcases hq with _ | ⟨_, hq⟩
          · exact ⟨rfl, rfl⟩
          · exact hpaid q hq
        · rw [hrpf]
          simp only [allDue_cons, hdz]
          ring
      · -- full settlement
        have hposr : 0 < p.remaining_amount := lt_of_not_le hz
        have hfull : dueNow today p ≤ s.remaining_payment := by linarith
        have hstep : repayStep today s p
            = { remaining_payment := s.remaining_payment - dueNow today p
                credit_balance := s.credit_balance - p.remaining_amount
                credit_score := min (s.credit_score + 10) 1000
                total_interest := s.total_interest + interestOn p.remaining_amount
                total_penalty := s.total_penalty + penaltyOn today p.due_date p.remaining_amount
                done := s.done ++
                  [{ p with remaining_amount := 0, is_paid := true, status := .PAID }] } := by
          unfold repayStep
          rw [if_neg (not_le.mpr hrp), if_neg hz, if_pos hfull]
        rw [hstep]
        obtain ⟨hcb, out, hdone, hpaid, hrpf⟩ := ih
          { remaining_payment := s.remaining_payment - dueNow today p
            credit_balance := s.credit_balance - p.remaining_amount
            credit_score := min (s.credit_score + 10) 1000
            total_interest := s.total_interest + interestOn p.remaining_amount
            total_penalty := s.total_penalty + penaltyOn today p.due_date p.remaining_amount
            done := s.done ++
              [{ p with remaining_amount := 0, is_paid := true, status := .PAID }] }
          hrest (by simp only; linarith)
        refine ⟨?_, { p with remaining_amount := 0, is_paid := true, status := .PAID } :: out,
          ?_, ?_, ?_⟩
        · rw [hcb]
          simp only [allSum_cons]
          ring
        · rw [hdone]
          simp
        · intro q hq
          rcases hq with _ | ⟨_, hq⟩
          · exact ⟨rfl, rfl⟩
          · exact hpaid q hq
        · rw [hrpf]
          simp only [allDue_cons]
          ring

/-- C10: overpayment is silently kept — when the cash amount strictly
exceeds the total amount due (principal + interest + penalty) over all
ACTIVE lines, the repayment succeeds, the wallet's cash balance drops by
the FULL amount, every line ends PAID, the credit balance reaches 0, and
the only ledger record appended is a single `repay` entry carrying the
full amount: the leftover is neither refunded nor recorded anywhere. -/
theorem overpayment_kept (today : ℤ) (st : St) (amount : ℚ) (hInv : Inv st)
    (hpos : 0 < amount) (hbal : amount ≤ st.wallet.balance)
    (hactive : st.purchases.filter (fun p => !p.is_paid) ≠ [])
    (hover : allDue today (activesOf st) < amount) :
    ∃ r, repay_credit today st amount = .ok r ∧
      r.st.wallet.balance = st.wallet.balance - amount ∧
      r.st.wallet.credit_balance = 0 ∧
      (∀ q ∈ r.st.purchases, q.is_paid = true ∧ q.status = PStatus.PAID) ∧
      r.st.ledger = st.ledger ++ [⟨"repay", amount⟩] := by
  obtain ⟨hcons, hgood⟩ := hInv
  obtain ⟨hcb, out, hdone, hpaid, _⟩ :=
    repayLoop_overpay today (activesOf st) (initLoop st amount)
      (activesOf_good hgood) hover
  have hA : allSum (activesOf st) = nonPaidSum st.purchases := by
    unfold activesOf nonPaidSum
    rw [allSum_sortByDue]
  have hok : repay_credit today st amount
      = .ok { st := { wallet := { st.wallet with
                        balance := st.wallet.balance - amount
                        credit_balance := (finLoop today st amount).credit_balance
                        credit_score := (finLoop today st amount).credit_score }
                      purchases := st.purchases.filter (fun p => p.is_paid)
                        ++ (finLoop today st amount).done
                      ledger := st.ledger ++ [⟨"repay", amount⟩] }
              total_interest := (finLoop today st amount).total_interest
              total_penalty := (finLoop today st amount).total_penalty } := by
    unfold repay_credit
    rw [if_neg (not_le.mpr hpos), if_neg (not_lt.mpr hbal),
      if_neg (by simpa [List.isEmpty_iff] using hactive)]
  refine ⟨_, hok, rfl, ?_, ?_, rfl⟩
  · show (finLoop today st amount).credit_balance = 0
    unfold finLoop
    rw [hcb]
    unfold conserved at hcons
    rw [show (initLoop st amount).credit_balance = st.wallet.credit_balance from rfl,
      hA, hcons]
    ring
  · intro q hq
    simp only at hq
    rcases List.mem_append.mp hq with hmem | hmem
    · have hb := List.of_mem_filter hmem
      have hm := List.mem_of_mem_filter hmem
      exact ⟨hb, ((hgood q hm).2.2).mp hb⟩
    · have : q ∈ out := by
        have hfd : (finLoop today st amount).done = out := by
          unfold finLoop
          rw [hdone]
          rfl
        rwa [hfd] at hmem
      exact hpaid q this

/-- Witness for C10: the one-line wallet (total due ₵2.05), repaid with
₵10: the line is PAID, cash drops by the full ₵10, and a single ledger
entry of ₵10 is appended. -/
theorem overpayment_kept_witness :
    ∃ r, repay_credit 700 oneLineSt 10 = .ok r ∧
      r.st.wallet.balance = oneLineSt.wallet.balance - 10 ∧
      r.st.wallet.credit_balance = 0 ∧
      (∀ q ∈ r.st.purchases, q.is_paid = true ∧ q.status = PStatus.PAID) ∧
      r.st.ledger = oneLineSt.ledger ++ [⟨"repay", 10⟩] := by
  refine overpayment_kept 700 oneLineSt 10 Inv_oneLineSt (by norm_num)
    ((by norm_num : (10:ℚ) ≤ 10) : (10:ℚ) ≤ oneLineSt.wallet.balance) ?_ ?_
  · rw [show oneLineSt.purchases = [oneLinePurchase] from rfl]
    simp [show oneLinePurchase.is_paid = false from rfl]
  · rw [activesOf_oneLineSt, allDue_cons, allDue_nil, dueNow_oneLine]
    norm_num

/-- Witness for C4's amended theorem at the counterexample state and a
concrete repayment. -/
theorem remaining_monotone_and_paid_terminal_witness :
    Inv oneLineSt ∧ oneLinePurchase ∈ oneLineSt.purchases ∧
    ∃ q ∈ (runOps oneLineSt [Op.repay 700 (51/25)]).purchases,
      q.id = oneLinePurchase.id ∧
      q.remaining_amount ≤ oneLinePurchase.remaining_amount ∧
        (oneLinePurchase.is_paid = true → q.is_paid = true ∧ q.status = PStatus.PAID) :=
  ⟨Inv_oneLineSt, List.mem_cons_self _ _,
    remaining_monotone_and_paid_terminal oneLineSt Inv_oneLineSt
      [Op.repay 700 (51/25)] oneLinePurchase (List.mem_cons_self _ _)⟩

end Kudiway
